import Mathlib

/-!
# ESP32 piano pedal controller: sensing core

A shallow embedding of `firmware_src/src/main.cpp` (the pedal value mapper
`AdcRemap`, the calibration branch of `loop`, `SaveCalibration`,
`ReadCalibration`, `StartCalibration`, `FinishCalibration`,
`CheckButtonLong`, `GetPageturnerContinueTime`) together with the properties
established for it.

Conventions of the embedding.

* `int` values are mathematical integers (`Int`).  Voltages are millivolts and
  mapped values live in `0..255`, far from the 32-bit limits; results on
  `AdcRemap` that depend on integer arithmetic are stated for filter states
  and raw targets in `0..255`, where no 32-bit operation overflows.
* In `AdcRemap`, `valueRaw` and `filterUpdate` the `float` values are exact
  rationals (`ℚ`): the constants `0.05f`, `0.45f`, `0.7f`, `0.2f` are `1/20`,
  `9/20`, `7/10`, `1/5`, and no rounding error is modelled.  A conversion
  `(int)x` of a finite float is truncation toward zero (`truncQ`).  This
  embedding is used for results that do not depend on how the float
  arithmetic rounds.  Where the rounding matters (the choice of the smoothing
  coefficient), lines 461-463 are embedded in IEEE binary32 arithmetic
  (`roundF32`, `emaUpdate32`), with the contraction of the multiply-add by
  the compiler as a parameter.
* `0.0f / 0.0f` is NaN and C++ leaves the conversion of NaN to `int`
  unspecified.  The integer the target produces there is the parameter
  `nanInt` of the embedding; results that quantify over `nanInt` hold for
  whichever value the target yields.
* `unsigned long` timestamps (`millis()`) are naturals below `2^32`; their
  subtraction wraps modulo `2^32` (`usub`).
* Hardware reads (`analogRead`, `digitalRead`, `millis`,
  `esp_adc_cal_raw_to_voltage`) are inputs of the functions that perform them.
* Static locals and globals are explicit state that is passed in and returned.
-/

namespace PianoPedal

/-! ## Numeric helpers -/

/-- Conversion `(int)x` of a finite float: truncation toward zero. -/
def truncQ (q : ℚ) : Int := if 0 ≤ q then Int.floor q else Int.ceil q

/-- Arduino `constrain(amt, low, high)`:
`((amt)<(low)?(low):((amt)>(high)?(high):(amt)))`. -/
def constrain {α : Type} [LT α] [DecidableRel (fun a b : α => a < b)]
    (amt low high : α) : α :=
  if amt < low then low else if amt > high then high else amt

/-! ## Pedal value mapper (`AdcRemap`, main.cpp 426-508) -/

/-- Per-channel filter state: one slot of the static arrays `s_inited`,
`s_ema`, `s_lastOut` of `AdcRemap`. -/
structure FilterState where
  inited : Bool
  ema : ℚ
  lastOut : Int
deriving DecidableEq

/-- Zero-initialised static arrays `s_inited[40]`, `s_ema[40]`,
`s_lastOut[40]`. -/
def filterInit : Nat → FilterState := fun _ => ⟨false, 0, 0⟩

/-- Line 438: `float dz = constrain(deadZonePct, 0.0f, 0.45f)`. -/
def dz (deadZonePct : ℚ) : ℚ := constrain deadZonePct 0 (9 / 20)

/-- Line 440: `int reminV = minV + (maxV - minV) * dz`. -/
def reminV (minV maxV : Int) (deadZonePct : ℚ) : Int :=
  truncQ ((minV : ℚ) + ((maxV - minV : Int) : ℚ) * dz deadZonePct)

/-- Line 441: `int remaxV = maxV - (maxV - minV) * dz`. -/
def remaxV (minV maxV : Int) (deadZonePct : ℚ) : Int :=
  truncQ ((maxV : ℚ) - ((maxV - minV : Int) : ℚ) * dz deadZonePct)

/-- Lines 442-445: the raw target `valueRaw` of the cycle.  When the effective
range is empty (`remaxV = reminV`) the clamped voltage equals `reminV`, the
quotient is `0.0f / 0.0f` and the converted integer is `nanInt`. -/
def valueRaw (nanInt adcVoltage minV maxV : Int) (deadZonePct : ℚ) : Int :=
  let lo := reminV minV maxV deadZonePct
  let hi := remaxV minV maxV deadZonePct
  let adcVol := constrain adcVoltage lo hi
  if hi - lo = 0 then nanInt
  else
    let pct : ℚ := ((adcVol - lo : Int) : ℚ) / ((hi - lo : Int) : ℚ)
    truncQ (255 * pct)

/-- Lines 453-483: the update of one channel's filter slot by the raw target
`valueRaw` (cold start, adaptive EMA, micro-jitter dead band, step limit). -/
def filterUpdate (st : FilterState) (valueRaw : Int) : FilterState :=
  if !st.inited then
    { inited := true, ema := (valueRaw : ℚ), lastOut := valueRaw }
  else
    let delta : ℚ := (valueRaw : ℚ) - st.ema
    let alpha : ℚ := if |truncQ delta| > 15 then 7 / 10 else 1 / 5
    let ema : ℚ := st.ema + alpha * delta
    let emaInt : Int := truncQ (ema + (if ema ≥ 0 then 1 / 2 else -(1 / 2)))
    if |emaInt - st.lastOut| ≤ 1 then
      { inited := true, ema := ema, lastOut := st.lastOut }
    else
      let maxStep : Int := 12
      let step : Int := emaInt - st.lastOut
      let step : Int :=
        if step > maxStep then maxStep else if step < -maxStep then -maxStep else step
      { inited := true, ema := ema, lastOut := st.lastOut + step }

/-- Source function `AdcRemap(pin, minV, maxV, deadZonePct)`.  `adcVoltage` is the calibrated
voltage of the three averaged samples (lines 429-433), `s` the static filter
arrays, indexed by `pin % 40`.  The report to the OTA status sink (lines
490-505) does not influence the state or the result and is left out. -/
def AdcRemap (nanInt : Int) (s : Nat → FilterState) (pin : Nat)
    (adcVoltage minV maxV : Int) (deadZonePct : ℚ) : Int × (Nat → FilterState) :=
  if maxV ≤ minV then (0, s)
  else
    let v := valueRaw nanInt adcVoltage minV maxV deadZonePct
    let idx := pin % 40
    let st := filterUpdate (s idx) v
    (constrain st.lastOut 0 255, Function.update s idx st)

/-! ## Timestamps -/

/-- Subtraction of two `unsigned long` values (32 bits on the ESP32). -/
def usub (a b : Nat) : Nat := (a + 4294967296 - b) % 4294967296

/-! ## Persistent store, tones -/

/-- The six keys of the `"config"` namespace used by the firmware. -/
inductive Key where
  | sustainmin
  | sustainmax
  | sostenutomin
  | sostenutomax
  | softmin
  | softmax
deriving DecidableEq, Repr

/-- Modelled from the spec: the `Preferences` library is an external
collaborator that is absent from the sources.  Its contract (spec section 6)
is `load(key, default)` and `save(key, value)`, where a key that is not
present yields the supplied default.  A store maps each key to the committed
value, or to `none` when the key is absent. -/
abbrev Store := Key → Option Int

/-- Modelled from the spec: `prefs.getInt(key, default)`, the stored value or
the default when the key is absent. -/
def getInt (p : Store) (k : Key) (default : Int) : Int := (p k).getD default

/-- Modelled from the spec: `prefs.getUInt(key, default)` assigned to an `int`
variable, the stored value or the default when the key is absent. -/
def getUInt (p : Store) (k : Key) (default : Int) : Int := (p k).getD default

/-- Modelled from the spec: `prefs.putInt(key, value)`. -/
def putInt (p : Store) (k : Key) (v : Int) : Store := Function.update p k (some v)

/-- Calls to external collaborators with an observable effect, in program
order: a tone on the buzzer and a write to the persistent store. -/
inductive Event where
  | tone (degree duration_ms : Int)
  | put (k : Key) (v : Int)
deriving DecidableEq, Repr

/-- Source function `BeepTone(degree, duration_ms)` (lines 512-528): a degree outside `1..7`
is ignored, otherwise the tone is played. -/
def BeepTone (tr : List Event) (degree duration_ms : Int) : List Event :=
  if degree < 1 ∨ degree > 7 then tr else tr ++ [Event.tone degree duration_ms]

/-! ## Long-press detector (`CheckButtonLong`, lines 374-394) -/

/-- Source function `CheckButtonLong(pin, holdMs)`.  `t` is the static array `pinStartTimes`,
`low` is `digitalRead(pin) == LOW`, `now` the value of `millis()`. -/
def CheckButtonLong (t : Nat → Nat) (pin holdMs : Nat) (low : Bool) (now : Nat) :
    Bool × (Nat → Nat) :=
  let idx := pin % 40
  if low then
    if t idx = 0 then (false, Function.update t idx now)
    else if usub now (t idx) ≥ holdMs then (true, Function.update t idx 0)
    else (false, t)
  else (false, Function.update t idx 0)

/-- Polls of `CheckButtonLong` on one pin with one threshold, in order; each
poll is the pin level (`true` = LOW = pressed) and the clock reading.  Returns
the results of the polls. -/
def pollButton (t : Nat → Nat) (pin holdMs : Nat) : List (Bool × Nat) → List Bool
  | [] => []
  | (low, now) :: ps =>
    let r := CheckButtonLong t pin holdMs low now
    r.1 :: pollButton r.2 pin holdMs ps

/-! ## Calibration state machine -/

/-- Globals of main.cpp that the calibration code reads and writes, with the
persistent store, the `pinStartTimes` array of `CheckButtonLong` and the trace
of collaborator calls. -/
structure Sys where
  Sustain_Pedal_MIN : Int
  Sustain_Pedal_MAX : Int
  Sostenuto_Pedal_MIN : Int
  Sostenuto_Pedal_MAX : Int
  Soft_Pedal_MIN : Int
  Soft_Pedal_MAX : Int
  InCalibration : Bool
  calibrationStartMs : Nat
  calibrationCanceled : Bool
  prefs : Store
  pinStartTimes : Nat → Nat
  trace : List Event

/-- Constant `calibrationTimeoutMs` (line 71). -/
def calibrationTimeoutMs : Nat := 20000

/-- Constant `Calibrate_Button`, that is `Sostenuto_BUTTON_PIN`, pin 14 (lines 48, 52). -/
def Calibrate_Button : Nat := 14

/-- Source function `SaveCalibration()` (lines 305-317). -/
def SaveCalibration (s : Sys) : Sys :=
  let p := putInt s.prefs Key.sustainmin s.Sustain_Pedal_MIN
  let p := putInt p Key.sustainmax s.Sustain_Pedal_MAX
  let p := putInt p Key.sostenutomin s.Sostenuto_Pedal_MIN
  let p := putInt p Key.sostenutomax s.Sostenuto_Pedal_MAX
  let p := putInt p Key.softmin s.Soft_Pedal_MIN
  let p := putInt p Key.softmax s.Soft_Pedal_MAX
  { s with
    prefs := p
    trace := s.trace ++
      [Event.put Key.sustainmin s.Sustain_Pedal_MIN,
       Event.put Key.sustainmax s.Sustain_Pedal_MAX,
       Event.put Key.sostenutomin s.Sostenuto_Pedal_MIN,
       Event.put Key.sostenutomax s.Sostenuto_Pedal_MAX,
       Event.put Key.softmin s.Soft_Pedal_MIN,
       Event.put Key.softmax s.Soft_Pedal_MAX] }

/-- Source function `ReadCalibration()` (lines 319-331), the startup load. -/
def ReadCalibration (s : Sys) : Sys :=
  { s with
    Sustain_Pedal_MIN := getInt s.prefs Key.sustainmin 5000
    Sustain_Pedal_MAX := getInt s.prefs Key.sustainmax 0
    Sostenuto_Pedal_MIN := getInt s.prefs Key.sostenutomin 5000
    Sostenuto_Pedal_MAX := getInt s.prefs Key.sostenutomax 0
    Soft_Pedal_MIN := getInt s.prefs Key.softmin 5000
    Soft_Pedal_MAX := getInt s.prefs Key.softmax 0 }

/-- Source function `StartCalibration()` (lines 334-351); `now` is the value of `millis()`. -/
def StartCalibration (s : Sys) (now : Nat) : Sys :=
  { s with
    InCalibration := true
    calibrationCanceled := false
    calibrationStartMs := now
    Sustain_Pedal_MIN := 5000
    Sustain_Pedal_MAX := 0
    Sostenuto_Pedal_MIN := 5000
    Sostenuto_Pedal_MAX := 0
    Soft_Pedal_MIN := 5000
    Soft_Pedal_MAX := 0
    trace := BeepTone (BeepTone s.trace 1 120) 5 120 }

/-- Source function `FinishCalibration()` (lines 354-371). -/
def FinishCalibration (s : Sys) : Sys :=
  let s := { s with InCalibration := false }
  let s :=
    if !s.calibrationCanceled then
      let s := SaveCalibration s
      { s with trace := BeepTone s.trace 5 240 }
    else s
  { s with calibrationStartMs := 0, calibrationCanceled := false }

/-- Hardware readings of one pass through the calibration branch of `loop`:
the three converted voltages (lines 186-188), `millis()` at the timeout check
(line 207), the level of the calibration button and `millis()` inside
`CheckButtonLong` (line 232). -/
structure CalInput where
  susVoltage : Int
  sosVoltage : Int
  sofVoltage : Int
  nowTimeout : Nat
  buttonLow : Bool
  nowButton : Nat

/-- Lines 191-204 of `loop`: six conditional assignments, each to a bound of
its own (`if (susVoltage < Sustain_Pedal_MIN) Sustain_Pedal_MIN = susVoltage;`
and so on). -/
def updateMinMax (s : Sys) (i : CalInput) : Sys :=
  { s with
    Sustain_Pedal_MIN :=
      if i.susVoltage < s.Sustain_Pedal_MIN then i.susVoltage else s.Sustain_Pedal_MIN
    Sustain_Pedal_MAX :=
      if i.susVoltage > s.Sustain_Pedal_MAX then i.susVoltage else s.Sustain_Pedal_MAX
    Sostenuto_Pedal_MIN :=
      if i.sosVoltage < s.Sostenuto_Pedal_MIN then i.sosVoltage else s.Sostenuto_Pedal_MIN
    Sostenuto_Pedal_MAX :=
      if i.sosVoltage > s.Sostenuto_Pedal_MAX then i.sosVoltage else s.Sostenuto_Pedal_MAX
    Soft_Pedal_MIN :=
      if i.sofVoltage < s.Soft_Pedal_MIN then i.sofVoltage else s.Soft_Pedal_MIN
    Soft_Pedal_MAX :=
      if i.sofVoltage > s.Soft_Pedal_MAX then i.sofVoltage else s.Soft_Pedal_MAX }

/-- The condition of the timeout check, line 207:
`calibrationStartMs != 0 && (millis() - calibrationStartMs >= calibrationTimeoutMs)`. -/
def timeoutCheck (s : Sys) (now : Nat) : Bool :=
  s.calibrationStartMs != 0 && decide (usub now s.calibrationStartMs ≥ calibrationTimeoutMs)

/-- Lines 208-229 of `loop`: the body of the timeout check. -/
def timeoutBody (s : Sys) : Sys :=
  { s with
    InCalibration := false
    calibrationCanceled := true
    Sustain_Pedal_MIN := getUInt s.prefs Key.sustainmin 3300
    Sustain_Pedal_MAX := getUInt s.prefs Key.sustainmax 0
    Sostenuto_Pedal_MIN := getUInt s.prefs Key.sostenutomin 3300
    Sostenuto_Pedal_MAX := getUInt s.prefs Key.sostenutomax 0
    Soft_Pedal_MIN := getUInt s.prefs Key.softmin 3300
    Soft_Pedal_MAX := getUInt s.prefs Key.softmax 0
    trace := BeepTone (BeepTone s.trace 5 120) 1 120
    calibrationStartMs := 0 }

/-- The calibration branch of `loop` (lines 184-237), one pass. -/
def loopCalibration (s : Sys) (i : CalInput) : Sys :=
  let s := updateMinMax s i
  let s := if timeoutCheck s i.nowTimeout then timeoutBody s else s
  let r := CheckButtonLong s.pinStartTimes Calibrate_Button 2000 i.buttonLow i.nowButton
  let s := { s with pinStartTimes := r.2 }
  if r.1 then FinishCalibration s else s

/-- The part of `loop` that concerns calibration: the calibration branch when
`InCalibration` holds; otherwise the pass runs the mapping path, which touches
none of the fields of `Sys`. -/
def loopCal (s : Sys) (i : CalInput) : Sys :=
  if s.InCalibration then loopCalibration s i else s

/-- Successive passes of `loop`. -/
def runCal (s : Sys) : List CalInput → Sys
  | [] => s
  | i :: is => runCal (loopCal s i) is

/-! ## Hold-duration classifier (`GetPageturnerContinueTime`, lines 396-423) -/

/-- Constant `LongPressTimeMs` (line 75). -/
def LongPressTimeMs : Nat := 1000

/-- Static locals of `GetPageturnerContinueTime`. -/
structure PageState where
  downStartMs : Nat
  downing : Bool
  checked : Bool
deriving DecidableEq, Repr

/-- Initial values of the static locals. -/
def pageInit : PageState := { downStartMs := 0, downing := false, checked := false }

/-- Source function `GetPageturnerContinueTime(isDown)`; `now` is the value of `millis()`
during the call. -/
def GetPageturnerContinueTime (st : PageState) (isDown : Bool) (now : Nat) :
    Nat × PageState :=
  let st : PageState :=
    if isDown && !st.downing then
      { downStartMs := now, downing := true, checked := false }
    else st
  let longCheck (st : PageState) : Nat × PageState :=
    if decide (usub now st.downStartMs ≥ LongPressTimeMs) && st.downing && !st.checked then
      (LongPressTimeMs, { st with checked := true })
    else (0, st)
  if !isDown && st.downing then
    let st := { st with downing := false }
    if !st.checked then (usub now st.downStartMs, st)
    else longCheck st
  else longCheck st

/-- Successive polls of `GetPageturnerContinueTime`; each poll is the
engagement signal and the clock reading.  Returns the results of the polls and
the final state. -/
def pollPage (st : PageState) : List (Bool × Nat) → List Nat × PageState
  | [] => ([], st)
  | (isDown, now) :: ps =>
    let r := GetPageturnerContinueTime st isDown now
    let rest := pollPage r.2 ps
    (r.1 :: rest.1, rest.2)

/-! ## Engagement signal of the page turner (`loop`, lines 264-272) -/

/-- Lines 266-270 of `loop`: the local `pageTurnerDown` of one pass, computed
from the mapped sostenuto value of that pass. -/
def pageTurnerDown (sostenutoValue : Int) : Bool :=
  let pageTurnerDown := false
  if sostenutoValue > 100 then true
  else if sostenutoValue < 90 then false
  else pageTurnerDown

/-- Lines 264-272 of `loop` over successive passes while the keyboard is
connected: each pass feeds its `pageTurnerDown` to
`GetPageturnerContinueTime`.  A pass is the mapped sostenuto value and the
clock reading. -/
def pageTurnPasses (st : PageState) (passes : List (Int × Nat)) : List Nat × PageState :=
  pollPage st (passes.map (fun p => (pageTurnerDown p.1, p.2)))

/-! ## Power-up -/

/-- Globals at power-up (zero-initialised, lines 61-72 and 376) over a given
content of the persistent store. -/
def sysInit (p : Store) : Sys :=
  { Sustain_Pedal_MIN := 0
    Sustain_Pedal_MAX := 0
    Sostenuto_Pedal_MIN := 0
    Sostenuto_Pedal_MAX := 0
    Soft_Pedal_MIN := 0
    Soft_Pedal_MAX := 0
    InCalibration := false
    calibrationStartMs := 0
    calibrationCanceled := false
    prefs := p
    pinStartTimes := fun _ => 0
    trace := [] }

/-- The calibration part of `setup()` when the calibration button is held at
boot: `ReadCalibration()` (line 103), then `StartCalibration()` (lines
133-136) at clock reading `now`. -/
def setupCalibrating (p : Store) (now : Nat) : Sys :=
  StartCalibration (ReadCalibration (sysInit p)) now

/-- The store of a first boot: none of the six keys is present. -/
def emptyStore : Store := fun _ => none

/-- A session started at boot (clock reading 100, first-boot store) after one
pass at 19000 ms in which the calibration button is seen pressed. -/
def heldSession : Sys :=
  loopCal (setupCalibrating emptyStore 100)
    { susVoltage := 1500, sosVoltage := 1600, sofVoltage := 1700,
      nowTimeout := 19000, buttonLow := true, nowButton := 19000 }

/-- A pass at 21000 ms with the button still pressed; the two tones of the
timeout take 240 ms, so `CheckButtonLong` reads the clock at 21240 ms. -/
def latePass : CalInput :=
  { susVoltage := 1400, sosVoltage := 1650, sofVoltage := 1800,
    nowTimeout := 21000, buttonLow := true, nowButton := 21240 }

/-- A pass at 600 ms with the button released. -/
def earlyPass : CalInput :=
  { susVoltage := 1500, sosVoltage := 1600, sofVoltage := 1700,
    nowTimeout := 600, buttonLow := false, nowButton := 600 }

/-- A pass at 20100 ms with the button released. -/
def timeoutPass : CalInput :=
  { susVoltage := 1500, sosVoltage := 1600, sofVoltage := 1700,
    nowTimeout := 20100, buttonLow := false, nowButton := 20340 }

/-- One down-interval as seen by the classifier: the poll at `t0` observes
engagement, the polls at the times `mid` find the signal still engaged, and
the poll at `tr` observes disengagement. -/
def downInterval (t0 : Nat) (mid : List Nat) (tr : Nat) : List (Bool × Nat) :=
  (true, t0) :: mid.map (fun t => (true, t)) ++ [(false, tr)]

/-- Polls at the times `post` that find the signal disengaged. -/
def released (post : List Nat) : List (Bool × Nat) :=
  post.map (fun t => (false, t))

/-- Number of nonzero results in a list of results of the classifier. -/
def nonzeroCount (rs : List Nat) : Nat := rs.countP (fun r => r != 0)

/-- Times of the engaged polls after the first one, for an engagement from
1000 ms to 1500 ms polled every 10 ms: 1010, 1020, ..., 1490. -/
def mid500 : List Nat := (List.range 49).map (fun k => 1010 + 10 * k)

/-- Times of ten further polls after the disengaging poll at 1500 ms:
1510, 1520, ..., 1600. -/
def post500 : List Nat := (List.range 10).map (fun k => 1510 + 10 * k)

/-! ## Successive mapper cycles, caller of the classifier -/

/-- Arguments of one `AdcRemap` call on a pin: the sampled voltage, the two
bounds and the dead-zone fraction. -/
structure AdcCall where
  adcVoltage : Int
  minV : Int
  maxV : Int
  deadZonePct : ℚ

/-- Successive `AdcRemap` calls on one pin; returns the values the calls
return, in order, and the final filter arrays. -/
def runAdc (nanInt : Int) (s : Nat → FilterState) (pin : Nat) :
    List AdcCall → List Int × (Nat → FilterState)
  | [] => ([], s)
  | c :: cs =>
    let r := AdcRemap nanInt s pin c.adcVoltage c.minV c.maxV c.deadZonePct
    let rest := runAdc nanInt r.2 pin cs
    (r.1 :: rest.1, rest.2)

/-- Keys the page turner sends over the Bluetooth keyboard. -/
inductive PageKey where
  | KEY_PAGE_UP
  | KEY_PAGE_DOWN
deriving DecidableEq, Repr

/-- Lines 274-283 of `loop`: the key written for the value `downTime` that
`GetPageturnerContinueTime` returned, if any. -/
def pageTurnWrite (downTime : Nat) : Option PageKey :=
  if downTime = LongPressTimeMs then some PageKey.KEY_PAGE_UP
  else if downTime > 0 ∧ downTime < LongPressTimeMs then some PageKey.KEY_PAGE_DOWN
  else none

/-- Polls of an engagement that starts at `t0` and is still engaged at the
times `mid`. -/
def heldPolls (t0 : Nat) (mid : List Nat) : List (Bool × Nat) :=
  (true, t0) :: mid.map (fun t => (true, t))

/-- Times of the engaged polls after the first one, for an engagement that
starts at 1000 ms and is polled every 10 ms: 1010, 1020, ..., 1990. -/
def mid1000 : List Nat := (List.range 99).map (fun k => 1010 + 10 * k)

/-- Four cycles on the range 0..255 mV without dead zone whose voltages, and
hence raw targets, alternate between 127 and 128. -/
def jitterCalls : List AdcCall :=
  [{ adcVoltage := 127, minV := 0, maxV := 255, deadZonePct := 0 },
   { adcVoltage := 128, minV := 0, maxV := 255, deadZonePct := 0 },
   { adcVoltage := 127, minV := 0, maxV := 255, deadZonePct := 0 },
   { adcVoltage := 128, minV := 0, maxV := 255, deadZonePct := 0 }]

/-! ## Integer tail of the filter, binary32 arithmetic -/

/-- Lines 468-482: the new `s_lastOut` from the old one and the rounded
average `emaInt` (dead band of one unit, then a step of at most `maxStep`). -/
def stepLimit (lastOut emaInt : Int) : Int :=
  if |emaInt - lastOut| ≤ 1 then lastOut
  else
    let maxStep : Int := 12
    let step : Int := emaInt - lastOut
    let step : Int :=
      if step > maxStep then maxStep else if step < -maxStep then -maxStep else step
    lastOut + step

/-- Two's-complement wrap of a mathematical integer into the 32-bit `int`
range, the result of an overflowing `int` operation on the target. -/
def wrap32 (x : Int) : Int := (x + 2147483648) % 4294967296 - 2147483648

/-- Lines 468-482 in 32-bit `int` arithmetic: `emaInt - s_lastOut[idx]`, the
negation inside `abs` and `s_lastOut[idx] + step` wrap on overflow. -/
def stepLimit32 (lastOut emaInt : Int) : Int :=
  let diff : Int := wrap32 (emaInt - lastOut)
  let absDiff : Int := if diff > 0 then diff else wrap32 (-diff)
  if absDiff ≤ 1 then lastOut
  else
    let maxStep : Int := 12
    let step : Int := wrap32 (emaInt - lastOut)
    let step : Int :=
      if step > maxStep then maxStep else if step < -maxStep then -maxStep else step
    wrap32 (lastOut + step)

/-- Rounding of a rational to the nearest integer, ties to the even one. -/
def roundEven (x : ℚ) : Int :=
  let f := Int.floor x
  let r := x - (f : ℚ)
  if r < 1 / 2 then f
  else if 1 / 2 < r then f + 1
  else if f % 2 = 0 then f else f + 1

/-- Rounding of a rational to the nearest IEEE binary32 value (24-bit
significand, round to nearest, ties to even; exponents below -126 are
subnormal).  Overflow to infinity is not modelled: the function is used for
magnitudes below `2^32`. -/
def roundF32 (q : ℚ) : ℚ :=
  if q = 0 then 0
  else
    let e : Int := max (Int.log 2 |q|) (-126)
    let ulp : ℚ := (2 : ℚ) ^ (e - 23)
    (roundEven (q / ulp) : ℚ) * ulp

/-- The binary32 constant `0.7f` of line 462. -/
def c07f : ℚ := 11744051 / 16777216

/-- The binary32 constant `0.2f` of line 462. -/
def c02f : ℚ := 13421773 / 67108864

/-- Conversion `(int)x` of a binary32 value to a 32-bit `int`: truncation
toward zero, undefined (`none`) when the truncated value is out of range. -/
def toInt32 (q : ℚ) : Option Int :=
  if -2147483648 ≤ truncQ q ∧ truncQ q ≤ 2147483647 then some (truncQ q) else none

/-- Arduino `abs(x)` on a 32-bit `int`, `((x)>0?(x):-(x))`: the negation
overflows, and the result is undefined (`none`), for `-2147483648`. -/
def abs32 (d : Int) : Option Int :=
  if d = -2147483648 then none else some |d|

/-- Line 461 in binary32: `float delta = (float)valueRaw - s_ema[idx]`. -/
def delta32 (ema : ℚ) (valueRaw : Int) : ℚ :=
  roundF32 (roundF32 (valueRaw : ℚ) - ema)

/-- The binary32 value of `a + c * d`: rounded once when the compiler contracts
the expression into a fused multiply-add, otherwise the product is rounded and
then the sum. -/
def mulAdd32 (contract : Bool) (a c d : ℚ) : ℚ :=
  if contract then roundF32 (a + c * d) else roundF32 (a + roundF32 (c * d))

/-- Lines 461-463 in binary32 and 32-bit `int` arithmetic: the new `s_ema[idx]`
of an initialized channel from the old one and the raw target, or `none` when
`(int)delta` or `abs` is undefined. -/
def emaUpdate32 (contract : Bool) (ema : ℚ) (valueRaw : Int) : Option ℚ :=
  let delta := delta32 ema valueRaw
  (toInt32 delta).bind fun d =>
    (abs32 d).bind fun a =>
      let alpha : ℚ := if a > 15 then c07f else c02f
      some (mulAdd32 contract ema alpha delta)

/-- A session started by `StartCalibration` at clock reading 0 (first-boot
store) after one pass at 19000 ms in which the calibration button is seen
pressed. -/
def zeroStartSession : Sys :=
  loopCal (setupCalibrating emptyStore 0)
    { susVoltage := 1500, sosVoltage := 1600, sofVoltage := 1700,
      nowTimeout := 19000, buttonLow := true, nowButton := 19000 }

/-! ## Lemmas on the numeric helpers -/

theorem truncQ_eq_of_nonneg {q : ℚ} {z : Int} (h0 : 0 ≤ q) (h1 : (z : ℚ) ≤ q)
    (h2 : q < z + 1) : truncQ q = z := by
  unfold truncQ
  rw [if_pos h0]
  exact Int.floor_eq_iff.mpr ⟨h1, h2⟩

theorem truncQ_eq_of_neg {q : ℚ} {z : Int} (h0 : q < 0) (h1 : (z : ℚ) - 1 < q)
    (h2 : q ≤ z) : truncQ q = z := by
  unfold truncQ
  rw [if_neg (not_le.mpr h0)]
  exact Int.ceil_eq_iff.mpr ⟨h1, h2⟩

theorem truncQ_intCast (z : Int) : truncQ (z : ℚ) = z := by
  unfold truncQ
  split <;> simp

theorem truncQ_nonneg {q : ℚ} (h : 0 ≤ q) : 0 ≤ truncQ q := by
  unfold truncQ
  rw [if_pos h]
  exact Int.floor_nonneg.mpr h

theorem truncQ_le_of_le_intCast {q : ℚ} {z : Int} (h0 : 0 ≤ q) (h : q ≤ z) :
    truncQ q ≤ z := by
  unfold truncQ
  rw [if_pos h0]
  exact Int.cast_le.mp (le_trans (Int.floor_le q) h)

theorem constrain_int_mem {a lo hi : Int} (h : lo ≤ hi) :
    lo ≤ constrain a lo hi ∧ constrain a lo hi ≤ hi := by
  unfold constrain
  split_ifs <;> omega

theorem constrain_int_dist (a b lo hi : Int) (h : lo ≤ hi) :
    |constrain a lo hi - constrain b lo hi| ≤ |a - b| := by
  unfold constrain
  rw [abs_le]
  have h1 := neg_abs_le (a - b)
  have h2 := le_abs_self (a - b)
  have h3 := abs_nonneg (a - b)
  split_ifs <;> constructor <;> omega

theorem abs_truncQ_gt_iff (d : ℚ) : |truncQ d| > 15 ↔ 16 ≤ |d| := by
  unfold truncQ
  by_cases h : 0 ≤ d
  · rw [if_pos h, abs_of_nonneg h, abs_of_nonneg (Int.floor_nonneg.mpr h)]
    have : (15 : Int) < ⌊d⌋ ↔ (16 : Int) ≤ ⌊d⌋ := by omega
    rw [gt_iff_lt, this, Int.le_floor]
    norm_num
  · have hd : d < 0 := not_le.mp h
    have hc : ⌈d⌉ ≤ 0 := by
      rw [Int.ceil_le]
      exact_mod_cast hd.le
    rw [if_neg h, abs_of_neg hd, abs_of_nonpos hc]
    have : -⌈d⌉ > 15 ↔ ⌈d⌉ ≤ -16 := by omega
    rw [this, Int.ceil_le]
    constructor
    · intro h1
      have : d ≤ -16 := by exact_mod_cast h1
      linarith
    · intro h1
      have : d ≤ -16 := by linarith
      exact_mod_cast this

/-! ## Lemmas on the pedal value mapper -/

theorem filterUpdate_inited (st : FilterState) (v : Int) :
    (filterUpdate st v).inited = true := by
  simp only [filterUpdate]
  split_ifs <;> rfl

theorem filterUpdate_first (st : FilterState) (v : Int) (h : st.inited = false) :
    filterUpdate st v = { inited := true, ema := (v : ℚ), lastOut := v } := by
  unfold filterUpdate
  simp [h]

theorem filterUpdate_step (st : FilterState) (v : Int) (h : st.inited = true) :
    |(filterUpdate st v).lastOut - st.lastOut| ≤ 12 := by
  simp only [filterUpdate, h, Bool.not_true, Bool.false_eq_true, if_false]
  split_ifs <;> simp only [abs_le] <;> constructor <;> omega

theorem filterUpdate_ema (st : FilterState) (v : Int) (h : st.inited = true) :
    (filterUpdate st v).ema =
      st.ema + (if 16 ≤ |(v : ℚ) - st.ema| then 7 / 10 else 1 / 5) * ((v : ℚ) - st.ema) := by
  simp only [filterUpdate, h, Bool.not_true, Bool.false_eq_true, if_false, abs_truncQ_gt_iff]
  split_ifs <;> rfl

theorem AdcRemap_slot (nanInt : Int) (s : Nat → FilterState) (pin : Nat)
    (v minV maxV : Int) (dzp : ℚ) (hcal : minV < maxV) :
    (AdcRemap nanInt s pin v minV maxV dzp).2 (pin % 40) =
      filterUpdate (s (pin % 40)) (valueRaw nanInt v minV maxV dzp) := by
  unfold AdcRemap
  simp [not_le.mpr hcal]

theorem AdcRemap_fst (nanInt : Int) (s : Nat → FilterState) (pin : Nat)
    (v minV maxV : Int) (dzp : ℚ) (hcal : minV < maxV) :
    (AdcRemap nanInt s pin v minV maxV dzp).1 =
      constrain (filterUpdate (s (pin % 40)) (valueRaw nanInt v minV maxV dzp)).lastOut 0 255 := by
  unfold AdcRemap
  simp [not_le.mpr hcal]

theorem AdcRemap_other_slot (nanInt : Int) (s : Nat → FilterState) (pin : Nat)
    (v minV maxV : Int) (dzp : ℚ) (idx : Nat) (hidx : idx ≠ pin % 40) :
    (AdcRemap nanInt s pin v minV maxV dzp).2 idx = s idx := by
  unfold AdcRemap
  split_ifs
  · rfl
  · simp [Function.update, hidx]

theorem valueRaw_mem (nanInt v minV maxV : Int) (dzp : ℚ)
    (hspan : reminV minV maxV dzp < remaxV minV maxV dzp) :
    0 ≤ valueRaw nanInt v minV maxV dzp ∧ valueRaw nanInt v minV maxV dzp ≤ 255 := by
  have hne : ¬ (remaxV minV maxV dzp - reminV minV maxV dzp = 0) := by omega
  have hc := constrain_int_mem (a := v) (le_of_lt hspan)
  simp only [valueRaw, if_neg hne]
  have hd : (0 : ℚ) < ((remaxV minV maxV dzp - reminV minV maxV dzp : Int) : ℚ) := by
    exact_mod_cast (by omega : (0 : Int) < remaxV minV maxV dzp - reminV minV maxV dzp)
  have hn0 : (0 : ℚ) ≤
      ((constrain v (reminV minV maxV dzp) (remaxV minV maxV dzp) - reminV minV maxV dzp : Int) : ℚ) := by
    exact_mod_cast (by omega : (0 : Int) ≤
      constrain v (reminV minV maxV dzp) (remaxV minV maxV dzp) - reminV minV maxV dzp)
  have hn1 :
      ((constrain v (reminV minV maxV dzp) (remaxV minV maxV dzp) - reminV minV maxV dzp : Int) : ℚ)
        ≤ ((remaxV minV maxV dzp - reminV minV maxV dzp : Int) : ℚ) := by
    exact_mod_cast (by omega :
      constrain v (reminV minV maxV dzp) (remaxV minV maxV dzp) - reminV minV maxV dzp
        ≤ remaxV minV maxV dzp - reminV minV maxV dzp)
  have hp0 := div_nonneg hn0 hd.le
  have hp1 := (div_le_one hd).mpr hn1
  constructor
  · exact truncQ_nonneg (by positivity)
  · refine truncQ_le_of_le_intCast (by positivity) ?_
    have h255 : (((255 : Int) : ℚ)) = 255 := by norm_num
    rw [h255]
    linarith

theorem AdcRemap_first_sample (nanInt : Int) (s : Nat → FilterState) (pin : Nat)
    (v minV maxV : Int) (dzp : ℚ) (hcal : minV < maxV)
    (hspan : reminV minV maxV dzp < remaxV minV maxV dzp)
    (hfirst : (s (pin % 40)).inited = false) :
    (AdcRemap nanInt s pin v minV maxV dzp).1 = valueRaw nanInt v minV maxV dzp ∧
    ((AdcRemap nanInt s pin v minV maxV dzp).2 (pin % 40)).ema
      = (valueRaw nanInt v minV maxV dzp : ℚ) ∧
    ((AdcRemap nanInt s pin v minV maxV dzp).2 (pin % 40)).lastOut
      = valueRaw nanInt v minV maxV dzp := by
  have hm := valueRaw_mem nanInt v minV maxV dzp hspan
  rw [AdcRemap_fst _ _ _ _ _ _ _ hcal, AdcRemap_slot _ _ _ _ _ _ _ hcal,
    filterUpdate_first _ _ hfirst]
  refine ⟨?_, rfl, rfl⟩
  simp only [constrain]
  split_ifs <;> omega

/-! ## Concrete evaluations used below -/

theorem reminV_500_3000 : reminV 500 3000 (1 / 20) = 625 := by
  simp only [reminV, dz, constrain]
  norm_num
  exact truncQ_eq_of_nonneg (by norm_num) (by norm_num) (by norm_num)

theorem remaxV_500_3000 : remaxV 500 3000 (1 / 20) = 2875 := by
  simp only [remaxV, dz, constrain]
  norm_num
  exact truncQ_eq_of_nonneg (by norm_num) (by norm_num) (by norm_num)

theorem valueRaw_500_3000_top (nanInt : Int) : valueRaw nanInt 3000 500 3000 (1 / 20) = 255 := by
  simp only [valueRaw, reminV_500_3000, remaxV_500_3000, constrain]
  norm_num
  exact truncQ_eq_of_nonneg (by norm_num) (by norm_num) (by norm_num)

theorem reminV_1650_1651 : reminV 1650 1651 (1 / 20) = 1650 := by
  simp only [reminV, dz, constrain]
  norm_num
  exact truncQ_eq_of_nonneg (by norm_num) (by norm_num) (by norm_num)

theorem remaxV_1650_1651 : remaxV 1650 1651 (1 / 20) = 1650 := by
  simp only [remaxV, dz, constrain]
  norm_num
  exact truncQ_eq_of_nonneg (by norm_num) (by norm_num) (by norm_num)

theorem valueRaw_1650_1651 (nanInt v : Int) : valueRaw nanInt v 1650 1651 (1 / 20) = nanInt := by
  simp only [valueRaw, reminV_1650_1651, remaxV_1650_1651, sub_self, if_true]

theorem reminV_0_255 : reminV 0 255 0 = 0 := by
  simp only [reminV, dz, constrain]
  norm_num
  exact truncQ_intCast 0

theorem remaxV_0_255 : remaxV 0 255 0 = 255 := by
  simp only [remaxV, dz, constrain]
  norm_num
  exact truncQ_eq_of_nonneg (by norm_num) (by norm_num) (by norm_num)

theorem valueRaw_0_255_116 (nanInt : Int) : valueRaw nanInt 116 0 255 0 = 116 := by
  simp only [valueRaw, reminV_0_255, remaxV_0_255, constrain]
  norm_num
  exact truncQ_eq_of_nonneg (by norm_num) (by norm_num) (by norm_num)

theorem valueRaw_0_255_id (nanInt v : Int) (h0 : 0 ≤ v) (h1 : v ≤ 255) :
    valueRaw nanInt v 0 255 0 = v := by
  have hc : constrain v 0 255 = v := by
    simp only [constrain]
    split_ifs <;> omega
  simp only [valueRaw, reminV_0_255, remaxV_0_255, hc]
  norm_num
  have e : (255 : ℚ) * ((v : ℚ) / 255) = (v : ℚ) := by field_simp
  rw [e]
  exact truncQ_intCast v

/-! ## Lemmas on the integer tail of the filter -/

theorem stepLimit_dist (lastOut emaInt : Int) : |stepLimit lastOut emaInt - lastOut| ≤ 12 := by
  simp only [stepLimit]
  split_ifs <;> simp only [abs_le] <;> constructor <;> omega

theorem stepLimit_mem {lastOut emaInt lo hi : Int} (h1 : lo ≤ lastOut) (h2 : lastOut ≤ hi)
    (h3 : lo ≤ emaInt) (h4 : emaInt ≤ hi) :
    lo ≤ stepLimit lastOut emaInt ∧ stepLimit lastOut emaInt ≤ hi := by
  simp only [stepLimit]
  split_ifs <;> constructor <;> omega

theorem wrap32_of_mem {x : Int} (h1 : -2147483648 ≤ x) (h2 : x ≤ 2147483647) :
    wrap32 x = x := by
  unfold wrap32
  omega

theorem stepLimit32_eq_stepLimit {lastOut emaInt : Int}
    (h1 : 0 ≤ lastOut) (h2 : lastOut ≤ 255)
    (h3 : -1073741824 ≤ emaInt) (h4 : emaInt ≤ 1073741824) :
    stepLimit32 lastOut emaInt = stepLimit lastOut emaInt := by
  have hd : wrap32 (emaInt - lastOut) = emaInt - lastOut :=
    wrap32_of_mem (by omega) (by omega)
  have hn : wrap32 (-(emaInt - lastOut)) = -(emaInt - lastOut) :=
    wrap32_of_mem (by omega) (by omega)
  have habs : (if emaInt - lastOut > 0 then emaInt - lastOut else -(emaInt - lastOut)) =
      |emaInt - lastOut| := by
    split_ifs with h
    · exact (abs_of_pos h).symm
    · exact (abs_of_nonpos (by omega)).symm
  simp only [stepLimit32, stepLimit, hd, hn, habs]
  split_ifs <;> first | rfl | exact wrap32_of_mem (by omega) (by omega)

theorem stepLimit32_overflow :
    stepLimit32 (-2147483648) 100 = 2147483636 ∧
    constrain (-2147483648 : Int) 0 255 = 0 ∧ constrain (2147483636 : Int) 0 255 = 255 := by
  decide

theorem filterUpdate_eq (st : FilterState) (v : Int) (h : st.inited = true) :
    filterUpdate st v =
      { inited := true
        ema := st.ema + (if |truncQ ((v : ℚ) - st.ema)| > 15 then 7 / 10 else 1 / 5) *
          ((v : ℚ) - st.ema)
        lastOut := stepLimit st.lastOut
          (truncQ (st.ema + (if |truncQ ((v : ℚ) - st.ema)| > 15 then 7 / 10 else 1 / 5) *
              ((v : ℚ) - st.ema) +
            (if st.ema + (if |truncQ ((v : ℚ) - st.ema)| > 15 then 7 / 10 else 1 / 5) *
              ((v : ℚ) - st.ema) ≥ 0 then 1 / 2 else -(1 / 2)))) } := by
  simp only [filterUpdate, stepLimit, h, Bool.not_true, Bool.false_eq_true, if_false]
  by_cases hk : |truncQ (st.ema + (if |truncQ ((v : ℚ) - st.ema)| > 15 then 7 / 10 else 1 / 5) *
      ((v : ℚ) - st.ema) +
    (if st.ema + (if |truncQ ((v : ℚ) - st.ema)| > 15 then 7 / 10 else 1 / 5) *
      ((v : ℚ) - st.ema) ≥ 0 then 1 / 2 else -(1 / 2))) - st.lastOut| ≤ 1
  · rw [if_pos hk, if_pos hk]
  · rw [if_neg hk, if_neg hk]

theorem filterUpdate_lastOut (st : FilterState) (v : Int) (h : st.inited = true) :
    (filterUpdate st v).lastOut =
      stepLimit st.lastOut
        (truncQ ((filterUpdate st v).ema +
          (if (filterUpdate st v).ema ≥ 0 then 1 / 2 else -(1 / 2)))) := by
  rw [filterUpdate_eq st v h]

theorem filterUpdate_mem (st : FilterState) (v : Int) (hinit : st.inited = true)
    (hema0 : 0 ≤ st.ema) (hema1 : st.ema ≤ 255)
    (hlast0 : 0 ≤ st.lastOut) (hlast1 : st.lastOut ≤ 255)
    (hv0 : 0 ≤ v) (hv1 : v ≤ 255) :
    (filterUpdate st v).inited = true ∧
    0 ≤ (filterUpdate st v).ema ∧ (filterUpdate st v).ema ≤ 255 ∧
    0 ≤ (filterUpdate st v).lastOut ∧ (filterUpdate st v).lastOut ≤ 255 := by
  have hv0' : (0 : ℚ) ≤ (v : ℚ) := by exact_mod_cast hv0
  have hv1' : (v : ℚ) ≤ 255 := by exact_mod_cast hv1
  have he : 0 ≤ (filterUpdate st v).ema ∧ (filterUpdate st v).ema ≤ 255 := by
    rw [filterUpdate_ema _ _ hinit]
    split_ifs <;> constructor <;> linarith
  obtain ⟨he0, he1⟩ := he
  have hr0 : 0 ≤ truncQ ((filterUpdate st v).ema +
      (if (filterUpdate st v).ema ≥ 0 then 1 / 2 else -(1 / 2))) := by
    rw [if_pos he0]
    exact truncQ_nonneg (by linarith)
  have hr1 : truncQ ((filterUpdate st v).ema +
      (if (filterUpdate st v).ema ≥ 0 then 1 / 2 else -(1 / 2))) ≤ 255 := by
    rw [if_pos he0]
    unfold truncQ
    rw [if_pos (by linarith)]
    have : ⌊(filterUpdate st v).ema + 1 / 2⌋ < 256 :=
      Int.floor_lt.mpr (by push_cast; linarith)
    omega
  refine ⟨filterUpdate_inited _ _, he0, he1, ?_⟩
  rw [filterUpdate_lastOut _ _ hinit]
  exact stepLimit_mem hlast0 hlast1 hr0 hr1

/-! ## Results on the pedal value mapper -/

/-- C1, as amended: when the filter state of the channel is initialized and
holds `emaValue` and `lastOutput` in `0..255`, and the call is made with a
calibrated range whose effective range is not empty (`remaxV > reminV`), the
value returned by `AdcRemap` differs by at most 12 from the stored
`lastOutput`, and therefore by at most 12 from the value returned by the
previous call on that channel whenever that call was made with a calibrated
range too (whatever calibrated range it used, and whatever calls on other
channels came in between); the new filter state again holds `emaValue` and
`lastOutput` in `0..255`.  The bound does not depend on the float arithmetic:
lines 468-485, in 32-bit `int` arithmetic, give it for every rounded average
`emaInt` of magnitude at most `2^30`. -/
theorem AdcRemap_step_bound (nanInt : Int) (s : Nat → FilterState) (pin : Nat)
    (v minV maxV : Int) (dzp : ℚ)
    (hinit : (s (pin % 40)).inited = true)
    (hema0 : 0 ≤ (s (pin % 40)).ema) (hema1 : (s (pin % 40)).ema ≤ 255)
    (hlast0 : 0 ≤ (s (pin % 40)).lastOut) (hlast1 : (s (pin % 40)).lastOut ≤ 255)
    (hcal : minV < maxV)
    (hspan : reminV minV maxV dzp < remaxV minV maxV dzp) :
    |(AdcRemap nanInt s pin v minV maxV dzp).1 - (s (pin % 40)).lastOut| ≤ 12 ∧
    (∀ (s0 : Nat → FilterState) (v0 min0 max0 : Int) (dz0 : ℚ), min0 < max0 →
      s (pin % 40) = (AdcRemap nanInt s0 pin v0 min0 max0 dz0).2 (pin % 40) →
      |(AdcRemap nanInt s pin v minV maxV dzp).1 -
        (AdcRemap nanInt s0 pin v0 min0 max0 dz0).1| ≤ 12) ∧
    (((AdcRemap nanInt s pin v minV maxV dzp).2 (pin % 40)).inited = true ∧
      0 ≤ ((AdcRemap nanInt s pin v minV maxV dzp).2 (pin % 40)).ema ∧
      ((AdcRemap nanInt s pin v minV maxV dzp).2 (pin % 40)).ema ≤ 255 ∧
      0 ≤ ((AdcRemap nanInt s pin v minV maxV dzp).2 (pin % 40)).lastOut ∧
      ((AdcRemap nanInt s pin v minV maxV dzp).2 (pin % 40)).lastOut ≤ 255) ∧
    (∀ emaInt : Int, -1073741824 ≤ emaInt → emaInt ≤ 1073741824 →
      |constrain (stepLimit32 (s (pin % 40)).lastOut emaInt) 0 255 -
        (s (pin % 40)).lastOut| ≤ 12) := by
  have hclamp : constrain (s (pin % 40)).lastOut 0 255 = (s (pin % 40)).lastOut := by
    simp only [constrain]
    split_ifs <;> omega
  have key : |(AdcRemap nanInt s pin v minV maxV dzp).1 - (s (pin % 40)).lastOut| ≤ 12 := by
    rw [AdcRemap_fst _ _ _ _ _ _ _ hcal]
    have h := le_trans (constrain_int_dist
      (filterUpdate (s (pin % 40)) (valueRaw nanInt v minV maxV dzp)).lastOut
      (s (pin % 40)).lastOut 0 255 (by decide)) (filterUpdate_step _ _ hinit)
    rw [hclamp] at h
    exact h
  obtain ⟨hv0, hv1⟩ := valueRaw_mem nanInt v minV maxV dzp hspan
  refine ⟨key, ?_, ?_, ?_⟩
  · intro s0 v0 min0 max0 dz0 h0 hs
    have hprev : (AdcRemap nanInt s0 pin v0 min0 max0 dz0).1 = (s (pin % 40)).lastOut := by
      rw [AdcRemap_fst _ _ _ _ _ _ _ h0, ← AdcRemap_slot _ _ _ _ _ _ _ h0, ← hs, hclamp]
    rw [hprev]
    exact key
  · rw [AdcRemap_slot _ _ _ _ _ _ _ hcal]
    exact filterUpdate_mem _ _ hinit hema0 hema1 hlast0 hlast1 hv0 hv1
  · intro emaInt he0 he1
    rw [stepLimit32_eq_stepLimit hlast0 hlast1 he0 he1]
    have h := le_trans (constrain_int_dist (stepLimit (s (pin % 40)).lastOut emaInt)
      (s (pin % 40)).lastOut 0 255 (by decide)) (stepLimit_dist _ _)
    rw [hclamp] at h
    exact h

/-- Witness for `AdcRemap_step_bound`: a channel holding `emaValue = 100` and
`lastOutput = 100`, range 500..3000 mV (effective range 625..2875 mV). -/
theorem AdcRemap_step_bound_witness :
    |(AdcRemap 0 (fun _ => ⟨true, 100, 100⟩) 32 3000 500 3000 (1 / 20)).1 - 100| ≤ 12 :=
  (AdcRemap_step_bound 0 (fun _ => ⟨true, 100, 100⟩) 32 3000 500 3000 (1 / 20) rfl
    (by norm_num) (by norm_num) (by decide) (by decide) (by decide)
    (by rw [reminV_500_3000, remaxV_500_3000]; decide)).1

/-- C1, counterexample to the claim as stated: on pin 32 a first call with
range 500..3000 mV at 3000 mV returns 255 and initializes the filter state; a
second call with the uncalibrated range `maxV = 500 <= minV = 3000` returns 0
through the guard; the third call, again with range 500..3000 mV, finds the
state initialized and returns 255, which is 255 away from the value the
previous call returned. -/
theorem AdcRemap_step_bound_after_uncalibrated :
    ((AdcRemap 0 (AdcRemap 0 filterInit 32 3000 500 3000 (1 / 20)).2
        32 3000 3000 500 (1 / 20)).2 (32 % 40)).inited = true ∧
    (AdcRemap 0 (AdcRemap 0 filterInit 32 3000 500 3000 (1 / 20)).2
        32 3000 3000 500 (1 / 20)).1 = 0 ∧
    (AdcRemap 0 (AdcRemap 0 (AdcRemap 0 filterInit 32 3000 500 3000 (1 / 20)).2
        32 3000 3000 500 (1 / 20)).2 32 3000 500 3000 (1 / 20)).1 = 255 ∧
    ¬ |(AdcRemap 0 (AdcRemap 0 (AdcRemap 0 filterInit 32 3000 500 3000 (1 / 20)).2
        32 3000 3000 500 (1 / 20)).2 32 3000 500 3000 (1 / 20)).1 -
      (AdcRemap 0 (AdcRemap 0 filterInit 32 3000 500 3000 (1 / 20)).2
        32 3000 3000 500 (1 / 20)).1| ≤ 12 := by
  have h2 : AdcRemap 0 (AdcRemap 0 filterInit 32 3000 500 3000 (1 / 20)).2
      32 3000 3000 500 (1 / 20) = (0, (AdcRemap 0 filterInit 32 3000 500 3000 (1 / 20)).2) := by
    simp [AdcRemap]
  have h1 : (AdcRemap 0 filterInit 32 3000 500 3000 (1 / 20)).2 (32 % 40) =
      { inited := true, ema := 255, lastOut := 255 } := by
    rw [AdcRemap_slot _ _ _ _ _ _ _ (by decide), valueRaw_500_3000_top,
      filterUpdate_first _ _ rfl]
    norm_num
  have h3 : (AdcRemap 0 (AdcRemap 0 filterInit 32 3000 500 3000 (1 / 20)).2
      32 3000 500 3000 (1 / 20)).1 = 255 := by
    rw [AdcRemap_fst _ _ _ _ _ _ _ (by decide), valueRaw_500_3000_top, h1]
    have e : truncQ (511 / 2) = 255 :=
      truncQ_eq_of_nonneg (by norm_num) (by norm_num) (by norm_num)
    simp only [filterUpdate]
    norm_num [e, constrain]
  rw [h2]
  refine ⟨?_, rfl, h3, ?_⟩
  · rw [h1]
  · rw [h3]
    norm_num

/-- C2: with bounds `maxV <= minV`, `AdcRemap` returns 0 for every raw
voltage and every filter state, and leaves the filter state untouched. -/
theorem AdcRemap_uncalibrated (nanInt : Int) (s : Nat → FilterState) (pin : Nat)
    (v minV maxV : Int) (dzp : ℚ) (h : maxV ≤ minV) :
    (AdcRemap nanInt s pin v minV maxV dzp).1 = 0 ∧
    (AdcRemap nanInt s pin v minV maxV dzp).2 = s := by
  unfold AdcRemap
  rw [if_pos h]
  exact ⟨rfl, rfl⟩

/-- Witness for `AdcRemap_uncalibrated`: the bounds of a first boot,
`minV = 5000`, `maxV = 0`. -/
theorem AdcRemap_uncalibrated_witness :
    (AdcRemap 0 filterInit 35 1234 5000 0 (1 / 20)).1 = 0 ∧
    (AdcRemap 0 filterInit 35 1234 5000 0 (1 / 20)).2 = filterInit :=
  AdcRemap_uncalibrated 0 filterInit 35 1234 5000 0 (1 / 20) (by decide)

/-- C3, evaluation at the failing input: with the calibrated range
1650..1651 mV and the default dead zone the effective range is 1650..1650, the
fractional position is `0.0f / 0.0f`, and the first call stores the converted
NaN as `lastOutput` while it returns that value clamped to `0..255`; with a
conversion that saturates upward (`2147483647`) the call returns 255, with one
that saturates downward (`-2147483648`) it returns 0, in both cases a value
that is not the stored raw target. -/
theorem AdcRemap_first_sample_empty_range :
    reminV 1650 1651 (1 / 20) = 1650 ∧ remaxV 1650 1651 (1 / 20) = 1650 ∧
    (filterInit (35 % 40)).inited = false ∧
    (AdcRemap 2147483647 filterInit 35 1650 1650 1651 (1 / 20)).1 = 255 ∧
    ((AdcRemap 2147483647 filterInit 35 1650 1650 1651 (1 / 20)).2 (35 % 40)).lastOut
      = 2147483647 ∧
    (AdcRemap (-2147483648) filterInit 35 1650 1650 1651 (1 / 20)).1 = 0 ∧
    ((AdcRemap (-2147483648) filterInit 35 1650 1650 1651 (1 / 20)).2 (35 % 40)).lastOut
      = -2147483648 := by
  refine ⟨reminV_1650_1651, remaxV_1650_1651, rfl, ?_, ?_, ?_, ?_⟩
  · rw [AdcRemap_fst _ _ _ _ _ _ _ (by decide), valueRaw_1650_1651,
      filterUpdate_first _ _ rfl]
    simp [constrain]
  · rw [AdcRemap_slot _ _ _ _ _ _ _ (by decide), valueRaw_1650_1651,
      filterUpdate_first _ _ rfl]
  · rw [AdcRemap_fst _ _ _ _ _ _ _ (by decide), valueRaw_1650_1651,
      filterUpdate_first _ _ rfl]
    simp [constrain]
  · rw [AdcRemap_slot _ _ _ _ _ _ _ (by decide), valueRaw_1650_1651,
      filterUpdate_first _ _ rfl]

/-! ## Lemmas on binary32 rounding -/

theorem roundEven_eq_of_near {x : ℚ} {m : Int} (h1 : (m : ℚ) - 1 / 2 < x)
    (h2 : x < (m : ℚ) + 1 / 2) : roundEven x = m := by
  unfold roundEven
  by_cases hx : (m : ℚ) ≤ x
  · have hf : ⌊x⌋ = m := Int.floor_eq_iff.mpr ⟨hx, by linarith⟩
    simp only [hf]
    rw [if_pos (by linarith)]
  · have hx' : x < m := not_le.mp hx
    have hf : ⌊x⌋ = m - 1 :=
      Int.floor_eq_iff.mpr ⟨by push_cast; linarith, by push_cast; linarith⟩
    simp only [hf]
    have hr : ¬ (x - ((m - 1 : Int) : ℚ) < 1 / 2) := by push_cast; linarith
    have hr2 : 1 / 2 < x - ((m - 1 : Int) : ℚ) := by push_cast; linarith
    rw [if_neg hr, if_pos hr2]
    ring

theorem log2_eq {r : ℚ} {e : Int} (hr : 0 < r) (h1 : (2 : ℚ) ^ e ≤ r)
    (h2 : r < (2 : ℚ) ^ (e + 1)) : Int.log 2 r = e := by
  have a : e ≤ Int.log 2 r :=
    (Int.zpow_le_iff_le_log (by norm_num) hr).mp (by exact_mod_cast h1)
  have b : Int.log 2 r < e + 1 :=
    (Int.lt_zpow_iff_log_lt (by norm_num) hr).mp (by exact_mod_cast h2)
  omega

theorem roundF32_eq {q : ℚ} (e m : Int) (he : -126 ≤ e) (h1 : (2 : ℚ) ^ e ≤ |q|)
    (h2 : |q| < (2 : ℚ) ^ (e + 1))
    (h3 : (m : ℚ) - 1 / 2 < q / (2 : ℚ) ^ (e - 23))
    (h4 : q / (2 : ℚ) ^ (e - 23) < (m : ℚ) + 1 / 2) :
    roundF32 q = (m : ℚ) * (2 : ℚ) ^ (e - 23) := by
  have hpos : 0 < |q| := lt_of_lt_of_le (by positivity) h1
  have hq : q ≠ 0 := abs_pos.mp hpos
  unfold roundF32
  rw [if_neg hq]
  simp only [log2_eq hpos h1 h2, max_eq_left he, roundEven_eq_of_near h3 h4]

theorem roundF32_116 : roundF32 116 = 116 := by
  rw [roundF32_eq 6 15204352 (by norm_num) (by norm_num [abs_of_pos])
    (by norm_num [abs_of_pos]) (by norm_num) (by norm_num)]
  norm_num

theorem delta32_100p5_116 : delta32 (201 / 2) 116 = 31 / 2 := by
  have e : ((116 : Int) : ℚ) = 116 := by norm_num
  have h : (116 : ℚ) - 201 / 2 = 31 / 2 := by norm_num
  rw [delta32, e, roundF32_116, h,
    roundF32_eq 3 16252928 (by norm_num) (by norm_num [abs_of_pos])
      (by norm_num [abs_of_pos]) (by norm_num) (by norm_num)]
  norm_num

theorem delta32_100_116 : delta32 100 116 = 16 := by
  have e : ((116 : Int) : ℚ) = 116 := by norm_num
  have h : (116 : ℚ) - 100 = 16 := by norm_num
  rw [delta32, e, roundF32_116, h,
    roundF32_eq 4 8388608 (by norm_num) (by norm_num [abs_of_pos])
      (by norm_num [abs_of_pos]) (by norm_num) (by norm_num)]
  norm_num

theorem mulAdd32_slow_100p5 (contract : Bool) :
    mulAdd32 contract (201 / 2) c02f (31 / 2) = 13579059 / 131072 := by
  cases contract
  · have h1 : c02f * (31 / 2) = 416074963 / 134217728 := by norm_num [c02f]
    have h2 : roundF32 (416074963 / 134217728) = 13002343 / 4194304 := by
      rw [roundF32_eq 1 13002343 (by norm_num) (by norm_num [abs_of_pos])
        (by norm_num [abs_of_pos]) (by norm_num) (by norm_num)]
      norm_num
    have h3 : (201 / 2 : ℚ) + 13002343 / 4194304 = 434529895 / 4194304 := by norm_num
    simp only [mulAdd32, Bool.false_eq_true, if_false, h1, h2, h3]
    rw [roundF32_eq 6 13579059 (by norm_num) (by norm_num [abs_of_pos])
      (by norm_num [abs_of_pos]) (by norm_num) (by norm_num)]
    norm_num
  · have h1 : (201 / 2 : ℚ) + c02f * (31 / 2) = 13904956627 / 134217728 := by
      norm_num [c02f]
    simp only [mulAdd32, if_true, h1]
    rw [roundF32_eq 6 13579059 (by norm_num) (by norm_num [abs_of_pos])
      (by norm_num [abs_of_pos]) (by norm_num) (by norm_num)]
    norm_num

theorem mulAdd32_fast_100 : mulAdd32 false 100 c07f 16 = 7287603 / 65536 := by
  have h1 : c07f * 16 = 11744051 / 1048576 := by norm_num [c07f]
  have h2 : roundF32 (11744051 / 1048576) = 11744051 / 1048576 := by
    rw [roundF32_eq 3 11744051 (by norm_num) (by norm_num [abs_of_pos])
      (by norm_num [abs_of_pos]) (by norm_num) (by norm_num)]
    norm_num
  have h3 : (100 : ℚ) + 11744051 / 1048576 = 116601651 / 1048576 := by norm_num
  simp only [mulAdd32, Bool.false_eq_true, if_false, h1, h2, h3]
  rw [roundF32_eq 6 14575206 (by norm_num) (by norm_num [abs_of_pos])
    (by norm_num [abs_of_pos]) (by norm_num) (by norm_num)]
  norm_num

theorem abs_truncQ_le (q : ℚ) : ((|truncQ q| : Int) : ℚ) ≤ |q| := by
  unfold truncQ
  by_cases h : 0 ≤ q
  · rw [if_pos h, abs_of_nonneg (Int.floor_nonneg.mpr h), abs_of_nonneg h]
    exact Int.floor_le q
  · have hq : q < 0 := not_le.mp h
    have hc : ⌈q⌉ ≤ 0 := by
      rw [Int.ceil_le]
      exact_mod_cast hq.le
    rw [if_neg h, abs_of_nonpos hc, abs_of_neg hq]
    push_cast
    linarith [Int.le_ceil q]

theorem emaUpdate32_undefined_after_nan_start (contract : Bool) :
    delta32 (-2147483648) 255 = 2147483904 ∧
    emaUpdate32 contract (-2147483648) 255 = none := by
  have e : ((255 : Int) : ℚ) = 255 := by norm_num
  have h255 : roundF32 255 = 255 := by
    rw [roundF32_eq 7 16711680 (by norm_num) (by norm_num [abs_of_pos])
      (by norm_num [abs_of_pos]) (by norm_num) (by norm_num)]
    norm_num
  have hsub : (255 : ℚ) - (-2147483648) = 2147483903 := by norm_num
  have hd : delta32 (-2147483648) 255 = 2147483904 := by
    rw [delta32, e, h255, hsub,
      roundF32_eq 31 8388609 (by norm_num) (by norm_num [abs_of_pos])
        (by norm_num [abs_of_pos]) (by norm_num) (by norm_num)]
    norm_num
  have ht : truncQ 2147483904 = 2147483904 := by
    have := truncQ_intCast 2147483904
    simpa using this
  refine ⟨hd, ?_⟩
  simp only [emaUpdate32, toInt32, hd, ht]
  norm_num

/-! ## Result on the smoothing coefficient -/

/-- C10, as amended: for every `emaValue` of an initialized channel and every
raw target for which `delta = (float)rawTarget - emaValue`, computed in
binary32, has magnitude below `2^31` (so that `(int)delta` and `abs` are
defined), lines 461-463 update `emaValue` to the binary32 value of
`emaValue + c * delta`, with or without contraction of the multiply-add, where
`c` is the fast coefficient `0.7f` exactly when `|delta| >= 16` (the source
tests `abs((int)delta) > 15`, the magnitude of `delta` truncated to an
integer) and the slow coefficient `0.2f` otherwise. -/
theorem emaUpdate32_coefficient (contract : Bool) (ema : ℚ) (valueRaw : Int)
    (hdef : |delta32 ema valueRaw| < 2147483648) :
    emaUpdate32 contract ema valueRaw =
      some (mulAdd32 contract ema
        (if 16 ≤ |delta32 ema valueRaw| then c07f else c02f) (delta32 ema valueRaw)) := by
  have hle := abs_truncQ_le (delta32 ema valueRaw)
  have hlt : ((|truncQ (delta32 ema valueRaw)| : Int) : ℚ) < 2147483648 :=
    lt_of_le_of_lt hle hdef
  have hlt' : |truncQ (delta32 ema valueRaw)| < 2147483648 := by exact_mod_cast hlt
  obtain ⟨hlo, hhi⟩ := abs_lt.mp hlt'
  have hrange : -2147483648 ≤ truncQ (delta32 ema valueRaw) ∧
      truncQ (delta32 ema valueRaw) ≤ 2147483647 := ⟨by omega, by omega⟩
  have hne : ¬ truncQ (delta32 ema valueRaw) = -2147483648 := by omega
  simp only [emaUpdate32, toInt32, abs32, if_pos hrange, Option.some_bind, if_neg hne,
    abs_truncQ_gt_iff]

/-- Witness for `emaUpdate32_coefficient`: `emaValue = 100`, raw target 116,
`delta = 16`; without contraction the new `emaValue` is `7287603/65536`
(111.19999694824219). -/
theorem emaUpdate32_coefficient_witness :
    emaUpdate32 false 100 116 = some (7287603 / 65536) :=
  (emaUpdate32_coefficient false 100 116 (by rw [delta32_100_116]; norm_num)).trans
    (by rw [delta32_100_116, if_pos (by norm_num), mulAdd32_fast_100])

/-- C10, counterexample to the claim as stated: with `emaValue = 100.5` and
raw target 116 the difference is `delta = 15.5` exactly, strictly between 15
and 16, and lines 461-463 apply the slow coefficient: the new `emaValue` is
`13579059/131072` (103.5999984741211) with or without contraction, below 104,
while the fast coefficient of the claim would give about 111.35. -/
theorem emaUpdate32_delta_between_15_and_16 :
    delta32 (201 / 2) 116 = 31 / 2 ∧ (15 : ℚ) < 31 / 2 ∧ (31 / 2 : ℚ) < 16 ∧
    emaUpdate32 false (201 / 2) 116 = some (13579059 / 131072) ∧
    emaUpdate32 true (201 / 2) 116 = some (13579059 / 131072) ∧
    (13579059 / 131072 : ℚ) < 104 ∧
    (111 : ℚ) < 201 / 2 + c07f * (31 / 2) ∧ (111 : ℚ) < 201 / 2 + 7 / 10 * (31 / 2) := by
  have hval : ∀ c : Bool, emaUpdate32 c (201 / 2) 116 = some (13579059 / 131072) := by
    intro c
    have ht : truncQ (31 / 2) = 15 :=
      truncQ_eq_of_nonneg (by norm_num) (by norm_num) (by norm_num)
    simp only [emaUpdate32, toInt32, abs32, delta32_100p5_116, ht]
    norm_num [mulAdd32_slow_100p5]
  refine ⟨delta32_100p5_116, by norm_num, by norm_num, hval false, hval true,
    by norm_num, by norm_num [c07f], by norm_num⟩

/-! ## Lemmas on the calibration state machine -/

theorem updateMinMax_bounds (s : Sys) (i : CalInput) :
    (updateMinMax s i).Sustain_Pedal_MIN = min s.Sustain_Pedal_MIN i.susVoltage ∧
    (updateMinMax s i).Sustain_Pedal_MAX = max s.Sustain_Pedal_MAX i.susVoltage ∧
    (updateMinMax s i).Sostenuto_Pedal_MIN = min s.Sostenuto_Pedal_MIN i.sosVoltage ∧
    (updateMinMax s i).Sostenuto_Pedal_MAX = max s.Sostenuto_Pedal_MAX i.sosVoltage ∧
    (updateMinMax s i).Soft_Pedal_MIN = min s.Soft_Pedal_MIN i.sofVoltage ∧
    (updateMinMax s i).Soft_Pedal_MAX = max s.Soft_Pedal_MAX i.sofVoltage := by
  simp only [updateMinMax, min_def, max_def]
  refine ⟨?_, ?_, ?_, ?_, ?_, ?_⟩ <;> split_ifs <;> omega

theorem updateMinMax_rest (s : Sys) (i : CalInput) :
    (updateMinMax s i).InCalibration = s.InCalibration ∧
    (updateMinMax s i).calibrationStartMs = s.calibrationStartMs ∧
    (updateMinMax s i).calibrationCanceled = s.calibrationCanceled ∧
    (updateMinMax s i).prefs = s.prefs ∧
    (updateMinMax s i).pinStartTimes = s.pinStartTimes ∧
    (updateMinMax s i).trace = s.trace := by
  exact ⟨rfl, rfl, rfl, rfl, rfl, rfl⟩

theorem timeoutCheck_updateMinMax (s : Sys) (i : CalInput) (now : Nat) :
    timeoutCheck (updateMinMax s i) now = timeoutCheck s now := by
  simp only [timeoutCheck, (updateMinMax_rest s i).2.1]

theorem FinishCalibration_bounds (s : Sys) :
    (FinishCalibration s).Sustain_Pedal_MIN = s.Sustain_Pedal_MIN ∧
    (FinishCalibration s).Sustain_Pedal_MAX = s.Sustain_Pedal_MAX ∧
    (FinishCalibration s).Sostenuto_Pedal_MIN = s.Sostenuto_Pedal_MIN ∧
    (FinishCalibration s).Sostenuto_Pedal_MAX = s.Sostenuto_Pedal_MAX ∧
    (FinishCalibration s).Soft_Pedal_MIN = s.Soft_Pedal_MIN ∧
    (FinishCalibration s).Soft_Pedal_MAX = s.Soft_Pedal_MAX := by
  simp only [FinishCalibration, SaveCalibration]
  refine ⟨?_, ?_, ?_, ?_, ?_, ?_⟩ <;> split_ifs <;> rfl

theorem FinishCalibration_inactive (s : Sys) : (FinishCalibration s).InCalibration = false := by
  simp only [FinishCalibration, SaveCalibration]
  split_ifs <;> rfl

theorem loopCalibration_no_timeout_bounds (s : Sys) (i : CalInput)
    (hno : timeoutCheck s i.nowTimeout = false) :
    (loopCalibration s i).Sustain_Pedal_MIN = (updateMinMax s i).Sustain_Pedal_MIN ∧
    (loopCalibration s i).Sustain_Pedal_MAX = (updateMinMax s i).Sustain_Pedal_MAX ∧
    (loopCalibration s i).Sostenuto_Pedal_MIN = (updateMinMax s i).Sostenuto_Pedal_MIN ∧
    (loopCalibration s i).Sostenuto_Pedal_MAX = (updateMinMax s i).Sostenuto_Pedal_MAX ∧
    (loopCalibration s i).Soft_Pedal_MIN = (updateMinMax s i).Soft_Pedal_MIN ∧
    (loopCalibration s i).Soft_Pedal_MAX = (updateMinMax s i).Soft_Pedal_MAX := by
  have hno2 : timeoutCheck (updateMinMax s i) i.nowTimeout = false := by
    rw [timeoutCheck_updateMinMax]; exact hno
  simp only [loopCalibration, hno2, Bool.false_eq_true, if_false]
  split_ifs
  · exact FinishCalibration_bounds _
  · exact ⟨rfl, rfl, rfl, rfl, rfl, rfl⟩

theorem BeepTone_cancel (tr : List Event) :
    BeepTone (BeepTone tr 5 120) 1 120 = tr ++ [Event.tone 5 120, Event.tone 1 120] := by
  simp [BeepTone]

theorem loopCal_active_prefs (s : Sys) (i : CalInput)
    (h : (loopCal s i).InCalibration = true) : (loopCal s i).prefs = s.prefs := by
  unfold loopCal at h ⊢
  by_cases hact : s.InCalibration = true
  · rw [if_pos hact] at h ⊢
    simp only [loopCalibration] at h ⊢
    by_cases ht : timeoutCheck (updateMinMax s i) i.nowTimeout = true
    · simp only [ht, if_true] at h
      split_ifs at h
      · rw [FinishCalibration_inactive] at h
        exact absurd h (by simp)
      · simp [timeoutBody] at h
    · simp only [ht, Bool.false_eq_true, if_false] at h ⊢
      split_ifs at h ⊢
      · rw [FinishCalibration_inactive] at h
        exact absurd h (by simp)
      · rfl
  · rw [if_neg hact]

theorem runCal_active_prefs (pre : List CalInput) (s : Sys)
    (h : (runCal s pre).InCalibration = true) : (runCal s pre).prefs = s.prefs := by
  induction pre generalizing s with
  | nil => rfl
  | cons i is ih =>
    simp only [runCal] at h ⊢
    have h1 := ih (loopCal s i) h
    have h2 : (loopCal s i).InCalibration = true := by
      by_contra hc
      have hn : (loopCal s i).InCalibration = false := by simpa using hc
      have hstay : ∀ (l : List CalInput) (u : Sys), u.InCalibration = false → runCal u l = u := by
        intro l
        induction l with
        | nil => intro u _; rfl
        | cons j js ihj =>
          intro u hu
          have : loopCal u j = u := by simp [loopCal, hu]
          simp only [runCal, this]
          exact ihj u hu
      rw [hstay is _ hn] at h
      exact hc h
    rw [h1, loopCal_active_prefs s i h2]

theorem timeoutBody_vs_ReadCalibration (s : Sys) :
    (timeoutBody s).Sustain_Pedal_MAX = (ReadCalibration s).Sustain_Pedal_MAX ∧
    (timeoutBody s).Sostenuto_Pedal_MAX = (ReadCalibration s).Sostenuto_Pedal_MAX ∧
    (timeoutBody s).Soft_Pedal_MAX = (ReadCalibration s).Soft_Pedal_MAX ∧
    ((s.prefs Key.sustainmin).isSome = true →
      (timeoutBody s).Sustain_Pedal_MIN = (ReadCalibration s).Sustain_Pedal_MIN) ∧
    ((s.prefs Key.sostenutomin).isSome = true →
      (timeoutBody s).Sostenuto_Pedal_MIN = (ReadCalibration s).Sostenuto_Pedal_MIN) ∧
    ((s.prefs Key.softmin).isSome = true →
      (timeoutBody s).Soft_Pedal_MIN = (ReadCalibration s).Soft_Pedal_MIN) := by
  refine ⟨rfl, rfl, rfl, ?_, ?_, ?_⟩ <;>
  · intro h
    obtain ⟨x, hx⟩ := Option.isSome_iff_exists.mp h
    simp [timeoutBody, ReadCalibration, getUInt, getInt, hx]

/-! ## Results on the calibration state machine -/

/-- C4: in a pass of `loop` made while a calibration session is active and in
which the timeout check does not fire, each of the three channels gets
`calibratedMin = min(old calibratedMin, sampled voltage)` and
`calibratedMax = max(old calibratedMax, sampled voltage)`; hence the minimum
does not increase, the maximum does not decrease, and the bounds of a channel
are the same for every pass that samples the same voltage on that channel,
whatever the other two channels sample. -/
theorem loopCal_widens (s : Sys) (i : CalInput)
    (hact : s.InCalibration = true) (hno : timeoutCheck s i.nowTimeout = false) :
    ((loopCal s i).Sustain_Pedal_MIN = min s.Sustain_Pedal_MIN i.susVoltage ∧
     (loopCal s i).Sustain_Pedal_MAX = max s.Sustain_Pedal_MAX i.susVoltage ∧
     (loopCal s i).Sostenuto_Pedal_MIN = min s.Sostenuto_Pedal_MIN i.sosVoltage ∧
     (loopCal s i).Sostenuto_Pedal_MAX = max s.Sostenuto_Pedal_MAX i.sosVoltage ∧
     (loopCal s i).Soft_Pedal_MIN = min s.Soft_Pedal_MIN i.sofVoltage ∧
     (loopCal s i).Soft_Pedal_MAX = max s.Soft_Pedal_MAX i.sofVoltage) ∧
    ((loopCal s i).Sustain_Pedal_MIN ≤ s.Sustain_Pedal_MIN ∧
     s.Sustain_Pedal_MAX ≤ (loopCal s i).Sustain_Pedal_MAX ∧
     (loopCal s i).Sostenuto_Pedal_MIN ≤ s.Sostenuto_Pedal_MIN ∧
     s.Sostenuto_Pedal_MAX ≤ (loopCal s i).Sostenuto_Pedal_MAX ∧
     (loopCal s i).Soft_Pedal_MIN ≤ s.Soft_Pedal_MIN ∧
     s.Soft_Pedal_MAX ≤ (loopCal s i).Soft_Pedal_MAX) ∧
    (∀ j : CalInput, timeoutCheck s j.nowTimeout = false →
      (j.susVoltage = i.susVoltage →
        (loopCal s j).Sustain_Pedal_MIN = (loopCal s i).Sustain_Pedal_MIN ∧
        (loopCal s j).Sustain_Pedal_MAX = (loopCal s i).Sustain_Pedal_MAX) ∧
      (j.sosVoltage = i.sosVoltage →
        (loopCal s j).Sostenuto_Pedal_MIN = (loopCal s i).Sostenuto_Pedal_MIN ∧
        (loopCal s j).Sostenuto_Pedal_MAX = (loopCal s i).Sostenuto_Pedal_MAX) ∧
      (j.sofVoltage = i.sofVoltage →
        (loopCal s j).Soft_Pedal_MIN = (loopCal s i).Soft_Pedal_MIN ∧
        (loopCal s j).Soft_Pedal_MAX = (loopCal s i).Soft_Pedal_MAX)) := by
  have eqs : ∀ j : CalInput, timeoutCheck s j.nowTimeout = false →
      (loopCal s j).Sustain_Pedal_MIN = min s.Sustain_Pedal_MIN j.susVoltage ∧
      (loopCal s j).Sustain_Pedal_MAX = max s.Sustain_Pedal_MAX j.susVoltage ∧
      (loopCal s j).Sostenuto_Pedal_MIN = min s.Sostenuto_Pedal_MIN j.sosVoltage ∧
      (loopCal s j).Sostenuto_Pedal_MAX = max s.Sostenuto_Pedal_MAX j.sosVoltage ∧
      (loopCal s j).Soft_Pedal_MIN = min s.Soft_Pedal_MIN j.sofVoltage ∧
      (loopCal s j).Soft_Pedal_MAX = max s.Soft_Pedal_MAX j.sofVoltage := by
    intro j hj
    have hl : loopCal s j = loopCalibration s j := by simp [loopCal, hact]
    obtain ⟨a1, a2, a3, a4, a5, a6⟩ := loopCalibration_no_timeout_bounds s j hj
    obtain ⟨b1, b2, b3, b4, b5, b6⟩ := updateMinMax_bounds s j
    rw [hl]
    exact ⟨a1.trans b1, a2.trans b2, a3.trans b3, a4.trans b4, a5.trans b5, a6.trans b6⟩
  obtain ⟨e1, e2, e3, e4, e5, e6⟩ := eqs i hno
  refine ⟨⟨e1, e2, e3, e4, e5, e6⟩, ⟨?_, ?_, ?_, ?_, ?_, ?_⟩, ?_⟩
  · rw [e1]; exact min_le_left _ _
  · rw [e2]; exact le_max_left _ _
  · rw [e3]; exact min_le_left _ _
  · rw [e4]; exact le_max_left _ _
  · rw [e5]; exact min_le_left _ _
  · rw [e6]; exact le_max_left _ _
  · intro j hj
    obtain ⟨f1, f2, f3, f4, f5, f6⟩ := eqs j hj
    refine ⟨?_, ?_, ?_⟩
    · intro hv; rw [f1, f2, e1, e2, hv]; exact ⟨rfl, rfl⟩
    · intro hv; rw [f3, f4, e3, e4, hv]; exact ⟨rfl, rfl⟩
    · intro hv; rw [f5, f6, e5, e6, hv]; exact ⟨rfl, rfl⟩

/-- Witness for `loopCal_widens`: the first pass of a session started at boot,
sampling 1500, 1600 and 1700 mV at 600 ms. -/
theorem loopCal_widens_witness :
    (loopCal (setupCalibrating emptyStore 100) earlyPass).Sustain_Pedal_MIN
        ≤ (setupCalibrating emptyStore 100).Sustain_Pedal_MIN ∧
    (setupCalibrating emptyStore 100).Sustain_Pedal_MAX
        ≤ (loopCal (setupCalibrating emptyStore 100) earlyPass).Sustain_Pedal_MAX :=
  have h := (loopCal_widens (setupCalibrating emptyStore 100) earlyPass rfl (by decide)).2.1
  ⟨h.1, h.2.1⟩

/-- C5, as amended: in a pass of `loop` made while a calibration session is active, if the
timeout check of line 207 holds (`calibrationStartMs != 0` and
`millis() - calibrationStartMs >= 20000`) and the 2000 ms long-press check of
the calibration button fires in the same pass, the session ends as canceled:
it is no longer active, the persistent store is unchanged, and the only
collaborator calls of the pass are the two tones of the timeout, so that
`SaveCalibration` is not invoked and the success tone `BeepTone(5, 240)` is
not emitted.  When the session was opened by `StartCalibration` and every
earlier pass left it active, the store still holds exactly what it held before
the session. -/
theorem loopCal_timeout_precedence (s : Sys) (i : CalInput)
    (hact : s.InCalibration = true)
    (htime : timeoutCheck s i.nowTimeout = true)
    (hpress : (CheckButtonLong s.pinStartTimes Calibrate_Button 2000
      i.buttonLow i.nowButton).1 = true) :
    (loopCal s i).InCalibration = false ∧
    (loopCal s i).prefs = s.prefs ∧
    (loopCal s i).trace = s.trace ++ [Event.tone 5 120, Event.tone 1 120] ∧
    (∀ (s0 : Sys) (t0 : Nat) (pre : List CalInput),
      s = runCal (StartCalibration s0 t0) pre → (loopCal s i).prefs = s0.prefs) := by
  have ht : timeoutCheck (updateMinMax s i) i.nowTimeout = true := by
    rw [timeoutCheck_updateMinMax]; exact htime
  have hl : loopCal s i = loopCalibration s i := by simp [loopCal, hact]
  have hp : (loopCal s i).prefs = s.prefs := by
    rw [hl]
    simp only [loopCalibration, ht, if_true]
    have : (timeoutBody (updateMinMax s i)).pinStartTimes = s.pinStartTimes := rfl
    rw [this, hpress]
    simp [FinishCalibration, timeoutBody, updateMinMax]
  refine ⟨?_, hp, ?_, ?_⟩
  · rw [hl]
    simp only [loopCalibration, ht, if_true]
    have : (timeoutBody (updateMinMax s i)).pinStartTimes = s.pinStartTimes := rfl
    rw [this, hpress]
    exact FinishCalibration_inactive _
  · rw [hl]
    simp only [loopCalibration, ht, if_true]
    have : (timeoutBody (updateMinMax s i)).pinStartTimes = s.pinStartTimes := rfl
    rw [this, hpress]
    simp [FinishCalibration, timeoutBody, updateMinMax, BeepTone]
  · intro s0 t0 pre hs
    rw [hp, hs]
    have hact2 : (runCal (StartCalibration s0 t0) pre).InCalibration = true := by
      rw [← hs]; exact hact
    rw [runCal_active_prefs pre _ hact2]
    rfl

/-- Witness for `loopCal_timeout_precedence`: a session started at 100 ms, the
button seen pressed at 19000 ms, and a pass at 21000 ms in which the session
has lasted 20900 ms and the button has been held for 2240 ms. -/
theorem loopCal_timeout_precedence_witness :
    (loopCal heldSession latePass).InCalibration = false ∧
    (loopCal heldSession latePass).prefs = heldSession.prefs ∧
    (loopCal heldSession latePass).trace =
      heldSession.trace ++ [Event.tone 5 120, Event.tone 1 120] :=
  have h := loopCal_timeout_precedence heldSession latePass (by decide) (by decide) (by decide)
  ⟨h.1, h.2.1, h.2.2.1⟩

/-- C5, counterexample to the claim as stated: a session started by
`StartCalibration` at clock reading 0 is active with `calibrationStartMs = 0`.
In the pass at 21000 ms the condition `now - start >= 20000` holds and the
long-press check fires (button held for 2240 ms), but the timeout check of
line 207 is skipped because `calibrationStartMs` is 0: the session is
committed, `SaveCalibration` writes the bounds to the store and the success
tone is emitted. -/
theorem loopCal_zero_start_commits :
    zeroStartSession.InCalibration = true ∧
    zeroStartSession.calibrationStartMs = 0 ∧
    usub latePass.nowTimeout zeroStartSession.calibrationStartMs ≥ calibrationTimeoutMs ∧
    (CheckButtonLong zeroStartSession.pinStartTimes Calibrate_Button 2000
      latePass.buttonLow latePass.nowButton).1 = true ∧
    (loopCal zeroStartSession latePass).InCalibration = false ∧
    zeroStartSession.prefs Key.sustainmin = none ∧
    (loopCal zeroStartSession latePass).prefs Key.sustainmin = some 1400 ∧
    (loopCal zeroStartSession latePass).prefs Key.sustainmax = some 1500 ∧
    (loopCal zeroStartSession latePass).trace =
      zeroStartSession.trace ++
        [Event.put Key.sustainmin 1400, Event.put Key.sustainmax 1500,
         Event.put Key.sostenutomin 1600, Event.put Key.sostenutomax 1650,
         Event.put Key.softmin 1700, Event.put Key.softmax 1800,
         Event.tone 5 240] := by
  decide

/-- C6, evaluation at the failing input: on a first boot (none of the six
keys present) a session that times out leaves the three minimum bounds at
3300, the defaults of the reload in `loop`, while `ReadCalibration` produces
5000 for each of them from the same store. -/
theorem timeout_reload_differs_from_ReadCalibration :
    (loopCal (setupCalibrating emptyStore 100) timeoutPass).InCalibration = false ∧
    (loopCal (setupCalibrating emptyStore 100) timeoutPass).prefs = emptyStore ∧
    (loopCal (setupCalibrating emptyStore 100) timeoutPass).Sustain_Pedal_MIN = 3300 ∧
    (loopCal (setupCalibrating emptyStore 100) timeoutPass).Sostenuto_Pedal_MIN = 3300 ∧
    (loopCal (setupCalibrating emptyStore 100) timeoutPass).Soft_Pedal_MIN = 3300 ∧
    (ReadCalibration (sysInit emptyStore)).Sustain_Pedal_MIN = 5000 ∧
    (ReadCalibration (sysInit emptyStore)).Sostenuto_Pedal_MIN = 5000 ∧
    (ReadCalibration (sysInit emptyStore)).Soft_Pedal_MIN = 5000 := by
  refine ⟨by decide, rfl, by decide, by decide, by decide, by decide, by decide, by decide⟩

/-! ## Lemmas on the hold-duration classifier -/

theorem GetPageturnerContinueTime_engage (st : PageState) (t0 : Nat)
    (h : st.downing = false) :
    GetPageturnerContinueTime st true t0 = (0, ⟨t0, true, false⟩) := by
  simp [GetPageturnerContinueTime, h, usub, LongPressTimeMs]

theorem GetPageturnerContinueTime_held (t0 t : Nat) (c : Bool) :
    GetPageturnerContinueTime ⟨t0, true, c⟩ true t =
      if usub t t0 ≥ LongPressTimeMs ∧ c = false then (LongPressTimeMs, ⟨t0, true, true⟩)
      else (0, ⟨t0, true, c⟩) := by
  cases c <;> simp [GetPageturnerContinueTime]

theorem GetPageturnerContinueTime_release (t0 t : Nat) (c : Bool) :
    GetPageturnerContinueTime ⟨t0, true, c⟩ false t =
      (if c then 0 else usub t t0, ⟨t0, false, c⟩) := by
  cases c <;> simp [GetPageturnerContinueTime]

theorem GetPageturnerContinueTime_idle (st : PageState) (t : Nat)
    (h : st.downing = false) :
    GetPageturnerContinueTime st false t = (0, st) := by
  simp [GetPageturnerContinueTime, h]

theorem pollPage_append (st : PageState) (a b : List (Bool × Nat)) :
    pollPage st (a ++ b) =
      ((pollPage st a).1 ++ (pollPage (pollPage st a).2 b).1,
        (pollPage (pollPage st a).2 b).2) := by
  induction a generalizing st with
  | nil => rfl
  | cons x xs ih =>
    obtain ⟨d, t⟩ := x
    have e1 : pollPage st ((d, t) :: (xs ++ b)) =
        ((GetPageturnerContinueTime st d t).1 ::
            (pollPage (GetPageturnerContinueTime st d t).2 (xs ++ b)).1,
          (pollPage (GetPageturnerContinueTime st d t).2 (xs ++ b)).2) := rfl
    have e2 : pollPage st ((d, t) :: xs) =
        ((GetPageturnerContinueTime st d t).1 ::
            (pollPage (GetPageturnerContinueTime st d t).2 xs).1,
          (pollPage (GetPageturnerContinueTime st d t).2 xs).2) := rfl
    rw [List.cons_append, e1, e2, ih]
    rfl

theorem pollPage_released (post : List Nat) (st : PageState) (h : st.downing = false) :
    pollPage st (released post) = (List.replicate post.length 0, st) := by
  induction post with
  | nil => rfl
  | cons t ts ih =>
    simp only [released, List.map_cons, pollPage, GetPageturnerContinueTime_idle st t h,
      List.length_cons, List.replicate_succ] at ih ⊢
    rw [ih]

theorem pollPage_held (t0 : Nat) (mid : List Nat) (c : Bool) :
    ∃ c', (pollPage ⟨t0, true, c⟩ (mid.map (fun t => (true, t)))).2 = ⟨t0, true, c'⟩ ∧
      ((c = true ∧ c' = true ∧
          nonzeroCount (pollPage ⟨t0, true, c⟩ (mid.map (fun t => (true, t)))).1 = 0) ∨
       (c = false ∧ c' = false ∧
          nonzeroCount (pollPage ⟨t0, true, c⟩ (mid.map (fun t => (true, t)))).1 = 0) ∨
       (c = false ∧ c' = true ∧
          nonzeroCount (pollPage ⟨t0, true, c⟩ (mid.map (fun t => (true, t)))).1 = 1)) := by
  induction mid generalizing c with
  | nil =>
    refine ⟨c, rfl, ?_⟩
    cases c <;> simp [pollPage, nonzeroCount]
  | cons t ts ih =>
    simp only [List.map_cons, pollPage, GetPageturnerContinueTime_held]
    by_cases hfire : usub t t0 ≥ LongPressTimeMs ∧ c = false
    · rw [if_pos hfire]
      obtain ⟨c', hst, hc⟩ := ih true
      refine ⟨c', hst, ?_⟩
      rcases hc with ⟨-, hc', hn⟩ | ⟨h, -, -⟩ | ⟨h, -, -⟩
      · right; right
        refine ⟨hfire.2, hc', ?_⟩
        simp only [nonzeroCount] at hn ⊢
        rw [List.countP_cons, hn]
        simp [LongPressTimeMs]
      · exact absurd h (by simp)
      · exact absurd h (by simp)
    · rw [if_neg hfire]
      obtain ⟨c', hst, hc⟩ := ih c
      refine ⟨c', hst, ?_⟩
      have hcount : ∀ rs : List Nat, nonzeroCount (0 :: rs) = nonzeroCount rs := by
        intro rs
        simp [nonzeroCount]
      simp only [hcount]
      exact hc

theorem usub_ne_zero {a b : Nat} (h : b < a) (ha : a < 4294967296) : usub a b ≠ 0 := by
  unfold usub
  omega

theorem pollPage_downInterval (st : PageState) (t0 : Nat) (mid : List Nat) (tr : Nat)
    (hidle : st.downing = false) (hlt : t0 < tr) (hb : tr < 4294967296) :
    nonzeroCount (pollPage st (downInterval t0 mid tr)).1 = 1 ∧
    (pollPage st (downInterval t0 mid tr)).2.downing = false := by
  obtain ⟨c', hst, hc⟩ := pollPage_held t0 mid false
  have hz : ∀ rs : List Nat, nonzeroCount (0 :: rs) = nonzeroCount rs := by
    intro rs
    simp [nonzeroCount]
  have happ : ∀ (rs : List Nat) (r : Nat),
      nonzeroCount (rs ++ [r]) = nonzeroCount rs + (if r != 0 then 1 else 0) := by
    intro rs r
    simp [nonzeroCount, List.countP_append, List.countP_cons]
  have hcons : ∀ l : List (Bool × Nat), pollPage st ((true, t0) :: l) =
      (0 :: (pollPage ⟨t0, true, false⟩ l).1, (pollPage ⟨t0, true, false⟩ l).2) := by
    intro l
    have e : pollPage st ((true, t0) :: l) =
        ((GetPageturnerContinueTime st true t0).1 ::
            (pollPage (GetPageturnerContinueTime st true t0).2 l).1,
          (pollPage (GetPageturnerContinueTime st true t0).2 l).2) := rfl
    rw [e, GetPageturnerContinueTime_engage st t0 hidle]
  have hlast : pollPage ⟨t0, true, c'⟩ [(false, tr)] =
      ([if c' then 0 else usub tr t0], ⟨t0, false, c'⟩) := by
    have e : pollPage ⟨t0, true, c'⟩ [(false, tr)] =
        ([(GetPageturnerContinueTime ⟨t0, true, c'⟩ false tr).1],
          (GetPageturnerContinueTime ⟨t0, true, c'⟩ false tr).2) := rfl
    rw [e, GetPageturnerContinueTime_release]
  rw [downInterval, List.cons_append, hcons, pollPage_append, hst, hlast]
  simp only [hz, happ]
  have hne := usub_ne_zero hlt hb
  rcases hc with ⟨h, -, -⟩ | ⟨-, hc', hn⟩ | ⟨-, hc', hn⟩
  · exact absurd h (by simp)
  · subst hc'
    rw [hn]
    simp [hne]
  · subst hc'
    rw [hn]
    simp

/-! ## Results on the button gesture detector -/

/-- C7, evaluation at the failing input: the pin is read LOW on every poll
(1 ms, 2001 ms, 2002 ms, 4002 ms, threshold 2000 ms).  The poll at 2001 ms
returns true and clears `pinStartTimes`, the poll at 2002 ms takes the cleared
entry for a new press and records 2002, and the poll at 4002 ms returns true
again although no poll has observed the pin released. -/
theorem CheckButtonLong_fires_again_while_held :
    pollButton (fun _ => 0) 14 2000 [(true, 1), (true, 2001), (true, 2002), (true, 4002)]
      = [false, true, false, true] := by
  decide

/-- C8: from a state that is not in a down-interval, a poll that observes
engagement at `t0`, further engaged polls at the times `mid`, the poll that
observes disengagement at `tr` and disengaged polls at the times `post`, with
strictly increasing timestamps below `2^32`, produce exactly one nonzero result
within the down-interval and 0 on every later poll, and leave the classifier
ready for the next engagement.  An engagement from 1000 ms to 1500 ms polled
every 10 ms yields fifty results 0, then 500 on the disengaging poll, then 0
on the ten later polls. -/
theorem pollPage_exactly_once (st : PageState) (t0 : Nat) (mid : List Nat) (tr : Nat)
    (post : List Nat)
    (hidle : st.downing = false)
    (hinc : List.Pairwise (fun a b => a < b) (t0 :: (mid ++ tr :: post)))
    (hbound : ∀ t ∈ t0 :: (mid ++ tr :: post), t < 4294967296) :
    (nonzeroCount (pollPage st (downInterval t0 mid tr)).1 = 1 ∧
     (∀ r ∈ (pollPage (pollPage st (downInterval t0 mid tr)).2 (released post)).1, r = 0) ∧
     (pollPage st (downInterval t0 mid tr ++ released post)).1 =
       (pollPage st (downInterval t0 mid tr)).1 ++
         (pollPage (pollPage st (downInterval t0 mid tr)).2 (released post)).1 ∧
     (pollPage st (downInterval t0 mid tr ++ released post)).2.downing = false) ∧
    (pollPage pageInit (downInterval 1000 mid500 1500 ++ released post500)).1 =
      List.replicate 50 0 ++ [500] ++ List.replicate 10 0 := by
  have hlt : t0 < tr := by
    exact (List.pairwise_cons.mp hinc).1 tr (by simp)
  have hb : tr < 4294967296 := hbound tr (by simp)
  obtain ⟨hcount, hdown⟩ := pollPage_downInterval st t0 mid tr hidle hlt hb
  have hrel := pollPage_released post _ hdown
  refine ⟨⟨hcount, ?_, ?_, ?_⟩, ?_⟩
  · intro r hr
    rw [hrel] at hr
    exact List.eq_of_mem_replicate hr
  · rw [pollPage_append]
  · rw [pollPage_append, hrel]
    exact hdown
  · decide

/-- Witness for `pollPage_exactly_once`: the engagement from 1000 ms to
1500 ms polled every 10 ms, followed by ten more polls. -/
theorem pollPage_exactly_once_witness :
    nonzeroCount (pollPage pageInit (downInterval 1000 mid500 1500)).1 = 1 ∧
    (∀ r ∈ (pollPage (pollPage pageInit (downInterval 1000 mid500 1500)).2
      (released post500)).1, r = 0) :=
  have h := (pollPage_exactly_once pageInit 1000 mid500 1500 post500 rfl
    (by decide) (by decide)).1
  ⟨h.1, h.2.1⟩

/-- C9, evaluation at the failing input: `pageTurnerDown` is a local of the
pass that starts as `false`, so a mapped value of 95, inside the band 90..100,
gives a disengaged signal even on the pass right after a pass at 150 that gave
an engaged one; fed to the classifier, the passes at 150 (1000 ms) and 95
(1010 ms) end the down-interval with a 10 ms classification while the value
is still at least 90. -/
theorem pageTurnerDown_drops_inside_band :
    pageTurnerDown 150 = true ∧ pageTurnerDown 95 = false ∧
    (pageTurnPasses pageInit [(150, 1000), (95, 1010)]).1 = [0, 10] := by
  decide

/-! ## Micro-jitter suppression -/

theorem filterUpdate_jitter (st : FilterState) (T v : Int) (hT : 0 ≤ T)
    (hinit : st.inited = true)
    (hema0 : (T : ℚ) ≤ st.ema) (hema1 : st.ema ≤ (T : ℚ) + 1)
    (hlast : st.lastOut = T ∨ st.lastOut = T + 1)
    (hv : v = T ∨ v = T + 1) :
    (filterUpdate st v).lastOut = st.lastOut ∧
    (filterUpdate st v).inited = true ∧
    (T : ℚ) ≤ (filterUpdate st v).ema ∧ (filterUpdate st v).ema ≤ (T : ℚ) + 1 := by
  have hT' : (0 : ℚ) ≤ (T : ℚ) := by exact_mod_cast hT
  have hvq : (v : ℚ) = T ∨ (v : ℚ) = T + 1 := by
    rcases hv with h | h
    · left; rw [h]
    · right; rw [h]; push_cast; ring
  have hd0 : -1 ≤ (v : ℚ) - st.ema := by rcases hvq with h | h <;> rw [h] <;> linarith
  have hd1 : (v : ℚ) - st.ema ≤ 1 := by rcases hvq with h | h <;> rw [h] <;> linarith
  have hslow : ¬ (16 ≤ |(v : ℚ) - st.ema|) := by
    have : |(v : ℚ) - st.ema| ≤ 1 := abs_le.mpr ⟨hd0, hd1⟩
    linarith
  have hema : (filterUpdate st v).ema = st.ema + 1 / 5 * ((v : ℚ) - st.ema) := by
    rw [filterUpdate_ema _ _ hinit, if_neg hslow]
  have he0 : (T : ℚ) ≤ st.ema + 1 / 5 * ((v : ℚ) - st.ema) := by
    rcases hvq with h | h <;> rw [h] <;> linarith
  have he1 : st.ema + 1 / 5 * ((v : ℚ) - st.ema) ≤ (T : ℚ) + 1 := by
    rcases hvq with h | h <;> rw [h] <;> linarith
  refine ⟨?_, filterUpdate_inited _ _, by rw [hema]; exact he0, by rw [hema]; exact he1⟩
  have hslow' : ¬ (|truncQ ((v : ℚ) - st.ema)| > 15) := by
    rw [abs_truncQ_gt_iff]; exact hslow
  have hge : st.ema + 1 / 5 * ((v : ℚ) - st.ema) ≥ 0 := le_trans hT' he0
  have hr0 : T ≤ truncQ (st.ema + 1 / 5 * ((v : ℚ) - st.ema) + 1 / 2) := by
    unfold truncQ
    rw [if_pos (by linarith)]
    exact Int.le_floor.mpr (by linarith)
  have hr1 : truncQ (st.ema + 1 / 5 * ((v : ℚ) - st.ema) + 1 / 2) < T + 2 := by
    unfold truncQ
    rw [if_pos (by linarith)]
    exact Int.floor_lt.mpr (by push_cast; linarith)
  have hkeep : |truncQ (st.ema + 1 / 5 * ((v : ℚ) - st.ema) + 1 / 2) - st.lastOut| ≤ 1 := by
    rw [abs_le]
    rcases hlast with h | h <;> rw [h] <;> constructor <;> omega
  simp only [filterUpdate, hinit, Bool.not_true, Bool.false_eq_true, if_false, hslow', hge,
    if_true, hkeep]

/-- C11: for every integer `T` in `0..254` and every initialized filter state
with `emaValue` in `[T, T+1]` and `lastOutput` in `{T, T+1}`, every sequence of
`AdcRemap` cycles on that channel, each made with a calibrated range (so that
it has a raw target) and with raw target `T` or `T+1` in any order, returns the
initial `lastOutput` on every cycle and leaves `lastOutput` unchanged. -/
theorem runAdc_jitter (nanInt T : Int) (pin : Nat) (hT0 : 0 ≤ T) (hT1 : T ≤ 254)
    (calls : List AdcCall) (s : Nat → FilterState)
    (hinit : (s (pin % 40)).inited = true)
    (hema0 : (T : ℚ) ≤ (s (pin % 40)).ema) (hema1 : (s (pin % 40)).ema ≤ (T : ℚ) + 1)
    (hlast : (s (pin % 40)).lastOut = T ∨ (s (pin % 40)).lastOut = T + 1)
    (hcalls : ∀ c ∈ calls, c.minV < c.maxV ∧
      (valueRaw nanInt c.adcVoltage c.minV c.maxV c.deadZonePct = T ∨
       valueRaw nanInt c.adcVoltage c.minV c.maxV c.deadZonePct = T + 1)) :
    (∀ r ∈ (runAdc nanInt s pin calls).1, r = (s (pin % 40)).lastOut) ∧
    ((runAdc nanInt s pin calls).2 (pin % 40)).lastOut = (s (pin % 40)).lastOut := by
  induction calls generalizing s with
  | nil => exact ⟨by intro r hr; simp [runAdc] at hr, rfl⟩
  | cons c cs ih =>
    obtain ⟨hcal, hv⟩ := hcalls c (by simp)
    obtain ⟨j1, j2, j3, j4⟩ :=
      filterUpdate_jitter (s (pin % 40)) T _ hT0 hinit hema0 hema1 hlast hv
    have hslot := AdcRemap_slot nanInt s pin c.adcVoltage c.minV c.maxV c.deadZonePct hcal
    have hfst := AdcRemap_fst nanInt s pin c.adcVoltage c.minV c.maxV c.deadZonePct hcal
    have hret : (AdcRemap nanInt s pin c.adcVoltage c.minV c.maxV c.deadZonePct).1 =
        (s (pin % 40)).lastOut := by
      rw [hfst, j1]
      simp only [constrain]
      rcases hlast with h | h <;> rw [h] <;> split_ifs <;> omega
    have hrest := ih (AdcRemap nanInt s pin c.adcVoltage c.minV c.maxV c.deadZonePct).2
      (by rw [hslot]; exact j2) (by rw [hslot]; exact j3) (by rw [hslot]; exact j4)
      (by rw [hslot, j1]; exact hlast)
      (fun c' hc' => hcalls c' (List.mem_cons_of_mem _ hc'))
    rw [hslot, j1] at hrest
    constructor
    · intro r hr
      simp only [runAdc, List.mem_cons] at hr
      rcases hr with h | h
      · rw [h, hret]
      · exact hrest.1 r h
    · simp only [runAdc]
      exact hrest.2

/-- Witness for `runAdc_jitter`: `T = 127`, `emaValue = 127.4`,
`lastOutput = 127`, raw targets 127, 128, 127, 128. -/
theorem runAdc_jitter_witness :
    (∀ r ∈ (runAdc 0 (fun _ => ⟨true, 637 / 5, 127⟩) 35 jitterCalls).1, r = 127) ∧
    ((runAdc 0 (fun _ => ⟨true, 637 / 5, 127⟩) 35 jitterCalls).2 (35 % 40)).lastOut = 127 :=
  runAdc_jitter 0 127 35 (by decide) (by decide) jitterCalls (fun _ => ⟨true, 637 / 5, 127⟩)
    rfl (by norm_num) (by norm_num) (Or.inl rfl)
    (by
      intro c hc
      simp only [jitterCalls, List.mem_cons, List.mem_singleton, List.not_mem_nil, or_false] at hc
      rcases hc with h | h | h | h <;> subst h <;>
        simp [valueRaw_0_255_id])

/-! ## Value returned on disengagement -/

theorem pollPage_heldPolls (st : PageState) (t0 : Nat) (mid : List Nat)
    (hidle : st.downing = false) :
    (pollPage st (heldPolls t0 mid)).2 =
      (pollPage ⟨t0, true, false⟩ (mid.map (fun t => (true, t)))).2 := by
  have e : pollPage st ((true, t0) :: mid.map (fun t => (true, t))) =
      ((GetPageturnerContinueTime st true t0).1 ::
          (pollPage (GetPageturnerContinueTime st true t0).2 (mid.map (fun t => (true, t)))).1,
        (pollPage (GetPageturnerContinueTime st true t0).2 (mid.map (fun t => (true, t)))).2) :=
    rfl
  rw [heldPolls, e, GetPageturnerContinueTime_engage st t0 hidle]

theorem pollPage_held_unchecked (t0 : Nat) (mid : List Nat)
    (h : (pollPage ⟨t0, true, false⟩ (mid.map (fun t => (true, t)))).2.checked = false) :
    ∀ t ∈ mid, usub t t0 < LongPressTimeMs := by
  induction mid with
  | nil => intro t ht; simp at ht
  | cons u us ih =>
    simp only [List.map_cons, pollPage, GetPageturnerContinueTime_held] at h
    by_cases hfire : usub u t0 ≥ LongPressTimeMs ∧ True
    · rw [if_pos hfire] at h
      obtain ⟨c', hst, hc⟩ := pollPage_held t0 us true
      rw [hst] at h
      rcases hc with ⟨-, hc', -⟩ | ⟨hx, -, -⟩ | ⟨hx, -, -⟩
      · rw [hc'] at h
        exact absurd h (by simp)
      · exact absurd hx (by simp)
      · exact absurd hx (by simp)
    · rw [if_neg hfire] at h
      intro t ht
      rcases List.mem_cons.mp ht with rfl | ht'
      · have : ¬ usub t t0 ≥ LongPressTimeMs := fun hge => hfire ⟨hge, trivial⟩
        omega
      · exact ih h t ht'

theorem usub_eq_sub {a b : Nat} (h : b ≤ a) (ha : a < 4294967296) : usub a b = a - b := by
  unfold usub
  omega

/-! ## Effective range -/

theorem dz_mem (deadZonePct : ℚ) : 0 ≤ dz deadZonePct ∧ dz deadZonePct ≤ 9 / 20 := by
  simp only [dz, constrain]
  split_ifs with h1 h2
  · norm_num
  · norm_num
  · exact ⟨not_lt.mp h1, not_lt.mp h2⟩

theorem effective_span_pos (minV maxV : Int) (deadZonePct : ℚ) (hmin : 0 ≤ minV)
    (hwide : 1 ≤ ((maxV - minV : Int) : ℚ) * (1 - 2 * dz deadZonePct)) :
    reminV minV maxV deadZonePct < remaxV minV maxV deadZonePct := by
  obtain ⟨hd0, hd1⟩ := dz_mem deadZonePct
  have hmin' : (0 : ℚ) ≤ (minV : ℚ) := by exact_mod_cast hmin
  have hspan : (0 : ℚ) ≤ ((maxV - minV : Int) : ℚ) := by
    by_contra hneg
    have hneg' : ((maxV - minV : Int) : ℚ) < 0 := not_le.mp hneg
    have : ((maxV - minV : Int) : ℚ) * (1 - 2 * dz deadZonePct) ≤ 0 :=
      mul_nonpos_of_nonpos_of_nonneg hneg'.le (by linarith)
    linarith
  have ha : (0 : ℚ) ≤ (minV : ℚ) + ((maxV - minV : Int) : ℚ) * dz deadZonePct := by
    have := mul_nonneg hspan hd0
    linarith
  have hcast : ((maxV - minV : Int) : ℚ) = (maxV : ℚ) - (minV : ℚ) := by push_cast; ring
  have hb : (minV : ℚ) + ((maxV - minV : Int) : ℚ) * dz deadZonePct + 1 ≤
      (maxV : ℚ) - ((maxV - minV : Int) : ℚ) * dz deadZonePct := by
    have e : (maxV : ℚ) - ((maxV - minV : Int) : ℚ) * dz deadZonePct -
        ((minV : ℚ) + ((maxV - minV : Int) : ℚ) * dz deadZonePct) =
        ((maxV - minV : Int) : ℚ) * (1 - 2 * dz deadZonePct) := by
      rw [hcast]; ring
    linarith
  simp only [reminV, remaxV, truncQ]
  rw [if_pos ha, if_pos (by linarith)]
  have h1 : ⌊(minV : ℚ) + ((maxV - minV : Int) : ℚ) * dz deadZonePct⌋ + 1 ≤
      ⌊(maxV : ℚ) - ((maxV - minV : Int) : ℚ) * dz deadZonePct⌋ := by
    rw [← Int.floor_add_one]
    exact Int.floor_mono hb
  omega

theorem reminV_0_9 : reminV 0 9 (9 / 20) = 4 := by
  simp only [reminV, dz, constrain]
  norm_num
  exact truncQ_eq_of_nonneg (by norm_num) (by norm_num) (by norm_num)

theorem remaxV_0_9 : remaxV 0 9 (9 / 20) = 4 := by
  simp only [remaxV, dz, constrain]
  norm_num
  exact truncQ_eq_of_nonneg (by norm_num) (by norm_num) (by norm_num)

/-! ## Results on the value returned on disengagement and on the effective range -/

/-- C12, as amended: from a state outside a down-interval, after the poll that
observes engagement at `t0` and the engaged polls at the times `mid`, with
non-decreasing timestamps below `2^32`, a nonzero value returned by the poll
that observes disengagement at `tr` is the elapsed time `tr - t0`; no engaged
poll had reached `LongPressTimeMs`, so the value is less than
`LongPressTimeMs` plus the time since any engaged poll; it is below
`LongPressTimeMs`, and the caller writes `KEY_PAGE_DOWN`, exactly when
`tr - t0 < LongPressTimeMs`. -/
theorem release_value_elapsed (st : PageState) (t0 : Nat) (mid : List Nat) (tr : Nat)
    (hidle : st.downing = false)
    (hmono : List.Pairwise (fun a b => a ≤ b) (t0 :: (mid ++ [tr])))
    (hbound : ∀ t ∈ t0 :: (mid ++ [tr]), t < 4294967296)
    (hnz : (GetPageturnerContinueTime (pollPage st (heldPolls t0 mid)).2 false tr).1 ≠ 0) :
    (GetPageturnerContinueTime (pollPage st (heldPolls t0 mid)).2 false tr).1 = tr - t0 ∧
    (∀ t ∈ mid, t - t0 < LongPressTimeMs) ∧
    (∀ t ∈ mid, (GetPageturnerContinueTime (pollPage st (heldPolls t0 mid)).2 false tr).1
      < LongPressTimeMs + (tr - t)) ∧
    ((GetPageturnerContinueTime (pollPage st (heldPolls t0 mid)).2 false tr).1 < LongPressTimeMs
      ↔ tr - t0 < LongPressTimeMs) ∧
    (pageTurnWrite (GetPageturnerContinueTime (pollPage st (heldPolls t0 mid)).2 false tr).1
      = some PageKey.KEY_PAGE_DOWN ↔ tr - t0 < LongPressTimeMs) := by
  obtain ⟨hfirst, hrest⟩ := List.pairwise_cons.mp hmono
  have ht0tr : t0 ≤ tr := hfirst tr (by simp)
  have htr : tr < 4294967296 := hbound tr (by simp)
  obtain ⟨c', hst, hc⟩ := pollPage_held t0 mid false
  have hstate : (pollPage st (heldPolls t0 mid)).2 = ⟨t0, true, c'⟩ := by
    rw [pollPage_heldPolls st t0 mid hidle, hst]
  rw [hstate, GetPageturnerContinueTime_release] at hnz ⊢
  have hc' : c' = false := by
    cases c'
    · rfl
    · simp at hnz
  subst hc'
  have hval : usub tr t0 = tr - t0 := usub_eq_sub ht0tr htr
  have hun : (pollPage ⟨t0, true, false⟩ (mid.map (fun t => (true, t)))).2.checked = false := by
    rw [hst]
  have hmid := pollPage_held_unchecked t0 mid hun
  have hmid' : ∀ t ∈ mid, t - t0 < LongPressTimeMs ∧ t0 ≤ t ∧ t ≤ tr := by
    intro t ht
    have h1 : t0 ≤ t := hfirst t (by simp [ht])
    have h2 : t < 4294967296 := hbound t (by simp [ht])
    have h3 : t ≤ tr := by
      have := List.pairwise_append.mp hrest
      exact this.2.2 t ht tr (by simp)
    have h4 := hmid t ht
    rw [usub_eq_sub h1 h2] at h4
    exact ⟨h4, h1, h3⟩
  have hpos : tr - t0 ≠ 0 := by
    intro h0
    apply hnz
    simp [hval, h0]
  have hr : (if false = true then 0 else usub tr t0) = tr - t0 := by
    rw [if_neg (by simp), hval]
  rw [hr]
  refine ⟨rfl, fun t ht => (hmid' t ht).1, ?_, Iff.rfl, ?_⟩
  · intro t ht
    obtain ⟨a, b, c⟩ := hmid' t ht
    omega
  · simp only [pageTurnWrite, LongPressTimeMs] at *
    constructor
    · intro h
      by_contra hge
      by_cases h1 : tr - t0 = 1000
      · rw [if_pos h1] at h
        simp at h
      · rw [if_neg h1, if_neg (by omega)] at h
        simp at h
    · intro h
      rw [if_neg (by omega), if_pos ⟨by omega, h⟩]

set_option maxRecDepth 100000 in
/-- Witness for `release_value_elapsed`: the engagement from 1000 ms to
1500 ms polled every 10 ms. -/
theorem release_value_elapsed_witness :
    (GetPageturnerContinueTime (pollPage pageInit (heldPolls 1000 mid500)).2 false 1500).1
      = 1500 - 1000 ∧
    pageTurnWrite
      (GetPageturnerContinueTime (pollPage pageInit (heldPolls 1000 mid500)).2 false 1500).1
      = some PageKey.KEY_PAGE_DOWN :=
  have h := release_value_elapsed pageInit 1000 mid500 1500 rfl (by decide) (by decide)
    (by decide)
  ⟨h.1, h.2.2.2.2.mpr (by decide)⟩

set_option maxRecDepth 100000 in
/-- C12, counterexample to the claim as stated: an engagement observed at
1000 ms and polled every 10 ms up to 1990 ms (elapsed 990 ms, every result 0).
A poll at 2000 ms that observes disengagement returns 1000, which is not below
`LongPressTimeMs`, and the caller writes `KEY_PAGE_UP`; a poll at 2005 ms
instead returns 1005 and the caller writes no key. -/
theorem release_value_not_short :
    (GetPageturnerContinueTime (pollPage pageInit (heldPolls 1000 mid1000)).2 false 2000).1
      = 1000 ∧
    pageTurnWrite 1000 = some PageKey.KEY_PAGE_UP ∧
    (GetPageturnerContinueTime (pollPage pageInit (heldPolls 1000 mid1000)).2 false 2005).1
      = 1005 ∧
    pageTurnWrite 1005 = none ∧
    ¬ ((1005 : Nat) < LongPressTimeMs) := by
  decide

/-- C13, evaluation at the failing input: the non-negative bounds 1650 and
1651 mV with the default dead zone 0.05 give `reminV = remaxV = 1650`, and the
bounds 0 and 9 mV with the dead zone 0.45 give `reminV = remaxV = 4`; the span
of the effective range is 0, the fractional position is `0.0f / 0.0f`, and the
raw target is the converted NaN, which with a saturating conversion lies
outside `0..255`. -/
theorem effective_range_empty :
    ((0 : Int) ≤ 1650 ∧ (1650 : Int) < 1651) ∧
    ¬ (remaxV 1650 1651 (1 / 20) > reminV 1650 1651 (1 / 20)) ∧
    ¬ (remaxV 0 9 (9 / 20) > reminV 0 9 (9 / 20)) ∧
    valueRaw 2147483647 1650 1650 1651 (1 / 20) = 2147483647 ∧
    ¬ (valueRaw 2147483647 1650 1650 1651 (1 / 20) ≤ 255) := by
  refine ⟨by decide, ?_, ?_, valueRaw_1650_1651 _ _, ?_⟩
  · rw [reminV_1650_1651, remaxV_1650_1651]
    decide
  · rw [reminV_0_9, remaxV_0_9]
    decide
  · rw [valueRaw_1650_1651]
    decide

end PianoPedal
